import Mathlib

/-!
Verification of the chefgpt recipe-generation core (src/openai_client.py,
src/schemas.py) against its specification.

The Python code is shallowly embedded: Python/JSON values become the
inductive type PyVal, Python dicts become ordered association lists with
string keys (JSON object keys and all keys used by the code are strings),
raised exceptions become Except.error carrying the exception text, and the
string-manipulating helpers (strip, lower, capitalize, str(), int(), in)
are modelled character by character.  Unicode case mapping is modelled on
the ASCII range (every string the code ever lowercases or capitalizes in
the claims is ASCII); Python floats are carried as their literal text,
which is enough because no claim depends on float arithmetic.
-/

/-- Python/JSON values as produced by json.loads and manipulated by
_coerce_recipe_dict.  Dicts are ordered association lists with string
keys (insertion order, unique keys).  A float is carried as its literal
text (its repr); no claim depends on float arithmetic. -/
inductive PyVal where
  | none : PyVal
  | bool : Bool → PyVal
  | int : Int → PyVal
  | float : String → PyVal
  | str : String → PyVal
  | list : List PyVal → PyVal
  | dict : List (String × PyVal) → PyVal
deriving Repr

/-- Whitespace stripped by Python str.strip() (ASCII part of the set). -/
def pyIsSpaceChar (c : Char) : Bool :=
  c = ' ' || c = '\t' || c = '\n' || c = '\r' || c = '\x0b' || c = '\x0c'

/-- str.strip() on a character list: drop whitespace from both ends. -/
def stripList (cs : List Char) : List Char :=
  ((cs.dropWhile pyIsSpaceChar).reverse.dropWhile pyIsSpaceChar).reverse

/-- Python str.strip() with no argument. -/
def pyStrip (s : String) : String :=
  ⟨stripList s.data⟩

/-- Python str.lower(), modelled on the ASCII range. -/
def pyLower (s : String) : String :=
  ⟨s.data.map Char.toLower⟩

/-- Python str.capitalize(): first character upper-cased, the rest
lower-cased (ASCII model). -/
def pyCapitalize (s : String) : String :=
  match s.data with
  | [] => ""
  | c :: rest => ⟨Char.toUpper c :: rest.map Char.toLower⟩

/-- Containment of one character list in another, as in Python
needle in hay (the empty needle is contained in everything). -/
def listContainsSub (needle : List Char) : List Char → Bool :=
  fun hay =>
    needle.isPrefixOf hay ||
      match hay with
      | [] => false
      | _ :: t => listContainsSub needle t

/-- Python substring test: needle in hay. -/
def strContains (hay needle : String) : Bool :=
  listContainsSub needle.data hay.data

/-- Python truthiness: bool(v) for the values of the model.  A float is
falsy exactly when its mantissa digits are all zero (literal test; the
underflow of tiny exponents to 0.0 is not modelled, no claim uses it). -/
def floatLexIsZero (lex : String) : Bool :=
  (lex.data.takeWhile (fun c => c ≠ 'e' && c ≠ 'E')).all
    (fun c => !(c.isDigit && c ≠ '0'))

/-- Python truthiness bool(v). -/
def pyTruthy : PyVal → Bool
  | .none => false
  | .bool b => b
  | .int n => n ≠ 0
  | .float lex => !floatLexIsZero lex
  | .str s => s ≠ ""
  | .list l => !l.isEmpty
  | .dict d => !d.isEmpty

/-- Python a or b (short-circuit on the truthiness of a). -/
def pyOr (a b : PyVal) : PyVal :=
  if pyTruthy a then a else b

/-- dict.get(k): first binding of k, None when absent. -/
def pyGet (d : List (String × PyVal)) (k : String) : PyVal :=
  (d.lookup k).getD .none

/-- dict.get(k, default). -/
def pyGetD (d : List (String × PyVal)) (k : String) (default : PyVal) : PyVal :=
  (d.lookup k).getD default

/-- Escape one character for Python repr of a string with the given
quote character: backslash and the quote are escaped, common control
characters use their short escapes. -/
def pyReprEscChar (quote c : Char) : List Char :=
  if c = '\\' then ['\\', '\\']
  else if c = quote then ['\\', quote]
  else if c = '\n' then ['\\', 'n']
  else if c = '\r' then ['\\', 'r']
  else if c = '\t' then ['\\', 't']
  else [c]

/-- Python repr of a string: single quotes unless the text holds a single
quote and no double quote, characters escaped as needed. -/
def pyReprStr (s : String) : String :=
  let quote : Char :=
    if listContainsSub ['\x27'] s.data && !listContainsSub ['\x22'] s.data
      then '\x22' else '\x27'
  ⟨quote :: (s.data.flatMap (pyReprEscChar quote)) ++ [quote]⟩

mutual

/-- Python repr(v) for the values of the model (str(container) uses the
repr of the elements). -/
def pyRepr : PyVal → String
  | .none => "None"
  | .bool b => if b then "True" else "False"
  | .int n => toString n
  | .float lex => lex
  | .str s => pyReprStr s
  | .list xs => "[" ++ String.intercalate (", ") (pyReprList xs) ++ "]"
  | .dict xs => "\x7b" ++ String.intercalate (", ") (pyReprPairs xs) ++ "\x7d"

/-- repr of each element of a list. -/
def pyReprList : List PyVal → List String
  | [] => []
  | x :: xs => pyRepr x :: pyReprList xs

/-- repr of each key: value pair of a dict. -/
def pyReprPairs : List (String × PyVal) → List String
  | [] => []
  | (k, v) :: xs => (pyReprStr k ++ ": " ++ pyRepr v) :: pyReprPairs xs

end

/-- Python str(v): identity on strings, repr otherwise. -/
def pyStr : PyVal → String
  | .str s => s
  | v => pyRepr v

/-- Python int(string): optional surrounding whitespace, an optional
sign, then ASCII digits (the model omits underscore separators and
non-ASCII digits, which no claim uses). -/
def parsePyIntDigits (cs : List Char) : Option Nat :=
  if cs.isEmpty then Option.none
  else if cs.all Char.isDigit then
    Option.some (cs.foldl (fun acc c => 10 * acc + c.toNat - '0'.toNat) 0)
  else Option.none

/-- Python int(string). -/
def parsePyIntStr (s : String) : Option Int :=
  match stripList s.data with
  | '-' :: rest => (parsePyIntDigits rest).map (fun n => -(n : Int))
  | '+' :: rest => (parsePyIntDigits rest).map (fun n => (n : Int))
  | rest => (parsePyIntDigits rest).map (fun n => (n : Int))

/-- Truncation toward zero of a float literal (sign, digits, optional
fraction, optional exponent), as Python int(float) does.  Returns none on
non-finite literals such as inf or nan, where Python raises. -/
def floatLexTruncCore (cs : List Char) : Option Int :=
  let intPart := cs.takeWhile Char.isDigit
  let rest1 := cs.dropWhile Char.isDigit
  let fracPart :=
    match rest1 with
    | '.' :: r => r.takeWhile Char.isDigit
    | _ => []
  let rest2 :=
    match rest1 with
    | '.' :: r => r.dropWhile Char.isDigit
    | _ => rest1
  let expOk : Option Int :=
    match rest2 with
    | [] => Option.some 0
    | 'e' :: r | 'E' :: r =>
      match r with
      | '-' :: ds => (parsePyIntDigits ds).map (fun n => -(n : Int))
      | '+' :: ds => (parsePyIntDigits ds).map (fun n => (n : Int))
      | ds => (parsePyIntDigits ds).map (fun n => (n : Int))
    | _ => Option.none
  match expOk with
  | Option.none => Option.none
  | Option.some e =>
    if intPart.isEmpty && fracPart.isEmpty then Option.none
    else
      let m : Int :=
        ((intPart ++ fracPart).foldl (fun acc c => 10 * acc + c.toNat - '0'.toNat) 0 : Nat)
      let k : Int := (fracPart.length : Int)
      if e ≥ k then Option.some (m * 10 ^ (e - k).toNat)
      else Option.some (m / 10 ^ (k - e).toNat)

/-- Python int(float) from a float literal. -/
def floatLexTrunc (lex : String) : Option Int :=
  match lex.data with
  | '-' :: rest => (floatLexTruncCore rest).map (fun n => -n)
  | '+' :: rest => floatLexTruncCore rest
  | rest => floatLexTruncCore rest

/-- Python int(v): succeeds on bools, ints, numeric strings and finite
floats; raises (returns none) on None, lists, dicts and bad strings. -/
def toIntOpt : PyVal → Option Int
  | .int n => Option.some n
  | .bool b => Option.some (if b then 1 else 0)
  | .str s => parsePyIntStr s
  | .float lex => floatLexTrunc lex
  | _ => Option.none

example : pyStrip ("  hi \n") = "hi" := by decide
example : pyLower ("AbC") = "abc" := by decide
example : pyCapitalize ("pUNJABI") = "Punjabi" := by decide
example : strContains ("hello") ("ell") = true := by decide
example : strContains ("hello") ("") = true := by decide
example : strContains ("hel") ("ell") = false := by decide
example : pyStr (.list [.str "a", .int 3]) = "[\x27a\x27, 3]" := by decide
example : pyStr (.dict [("a", .int 1)]) = "\x7b\x27a\x27: 1\x7d" := by decide
example : toIntOpt (.str " -42 ") = Option.some (-42) := by decide
example : toIntOpt (.str "abc") = Option.none := by decide
example : toIntOpt (.float "2.9") = Option.some 2 := by decide
example : toIntOpt (.float "-2.9") = Option.some (-2) := by decide
example : toIntOpt (.float "1.5e2") = Option.some 150 := by decide

/-! ## Model of json.loads (src/openai_client.py line 143) -/

/-- JSON inter-token whitespace. -/
def jsonWsChar (c : Char) : Bool :=
  c = ' ' || c = '\t' || c = '\n' || c = '\r'

/-- Skip JSON whitespace. -/
def jsonSkipWs (cs : List Char) : List Char :=
  cs.dropWhile jsonWsChar

/-- Insert a key into an object under construction: a duplicate key keeps
its first position and takes the last value, as Python dict building does. -/
def dictInsert (d : List (String × PyVal)) (k : String) (v : PyVal) :
    List (String × PyVal) :=
  match d with
  | [] => [(k, v)]
  | (k', v') :: rest =>
    if k' = k then (k', v) :: rest else (k', v') :: dictInsert rest k v

/-- Value of one hex digit. -/
def hexVal (c : Char) : Option Nat :=
  if c.isDigit then Option.some (c.toNat - '0'.toNat)
  else if 'a' ≤ c && c ≤ 'f' then Option.some (c.toNat - 'a'.toNat + 10)
  else if 'A' ≤ c && c ≤ 'F' then Option.some (c.toNat - 'A'.toNat + 10)
  else Option.none

/-- Value of a four-hex-digit escape. -/
def hex4 (a b c d : Char) : Option Nat :=
  match hexVal a, hexVal b, hexVal c, hexVal d with
  | Option.some x, Option.some y, Option.some z, Option.some w =>
    Option.some (((x * 16 + y) * 16 + z) * 16 + w)
  | _, _, _, _ => Option.none

/-- Digits to a natural number. -/
def digitsToNat (cs : List Char) : Nat :=
  cs.foldl (fun acc c => 10 * acc + c.toNat - '0'.toNat) 0

/-- Integer part of a JSON number: 0 or a nonzero digit followed by
digits (the regex (0|[1-9]\d*)). -/
def jsonIntDigits (cs : List Char) : Option (List Char × List Char) :=
  match cs with
  | '0' :: r => Option.some (['0'], r)
  | c :: r =>
    if c.isDigit then
      Option.some (c :: r.takeWhile Char.isDigit, r.dropWhile Char.isDigit)
    else Option.none
  | [] => Option.none

/-- Optional fraction of a JSON number: the regex group (\.\d+)?. -/
def jsonFrac (cs : List Char) : List Char × List Char :=
  match cs with
  | '.' :: r =>
    let ds := r.takeWhile Char.isDigit
    if ds.isEmpty then ([], cs) else ('.' :: ds, r.dropWhile Char.isDigit)
  | _ => ([], cs)

/-- Optional exponent of a JSON number: the regex group ([eE][-+]?\d+)?. -/
def jsonExp (cs : List Char) : List Char × List Char :=
  match cs with
  | e :: r =>
    if e = 'e' || e = 'E' then
      match r with
      | s :: r2 =>
        if s = '+' || s = '-' then
          let ds := r2.takeWhile Char.isDigit
          if ds.isEmpty then ([], cs) else (e :: s :: ds, r2.dropWhile Char.isDigit)
        else
          let ds := r.takeWhile Char.isDigit
          if ds.isEmpty then ([], cs) else (e :: ds, r.dropWhile Char.isDigit)
      | [] => ([], cs)
    else ([], cs)
  | [] => ([], cs)

/-- A JSON number at the head of the input: an int when there is no
fraction and no exponent, otherwise a float carried as its literal. -/
def parseJsonNumber (cs : List Char) : Option (PyVal × List Char) :=
  let signed := match cs with
    | '-' :: r => (true, r)
    | _ => (false, cs)
  match jsonIntDigits signed.2 with
  | Option.none => Option.none
  | Option.some (ip, r1) =>
    let fr := jsonFrac r1
    let ex := jsonExp fr.2
    if fr.1.isEmpty && ex.1.isEmpty then
      let n : Int := (digitsToNat ip : Int)
      Option.some (.int (if signed.1 then -n else n), ex.2)
    else
      let lex : List Char := (if signed.1 then ['-'] else []) ++ ip ++ fr.1 ++ ex.1
      Option.some (.float ⟨lex⟩, ex.2)

mutual

/-- One JSON value at the head of the input (whitespace already skipped),
following Python json scanner order: containers, strings, the constants,
numbers, then NaN/Infinity. -/
def parseJVal (fuel : Nat) (cs : List Char) : Except String (PyVal × List Char) :=
  match fuel with
  | 0 => .error "json model: out of fuel"
  | f + 1 =>
    match cs with
    | [] => .error "Expecting value"
    | c :: rest =>
      if c = '\x7b' then parseJObjBody f (jsonSkipWs rest) []
      else if c = '[' then parseJArrBody f (jsonSkipWs rest) []
      else if c = '\x22' then
        match parseJStrBody f rest with
        | .ok (content, r) => .ok (.str ⟨content⟩, r)
        | .error e => .error e
      else if ['t', 'r', 'u', 'e'].isPrefixOf cs then .ok (.bool true, cs.drop 4)
      else if ['f', 'a', 'l', 's', 'e'].isPrefixOf cs then .ok (.bool false, cs.drop 5)
      else if ['n', 'u', 'l', 'l'].isPrefixOf cs then .ok (.none, cs.drop 4)
      else
        match parseJsonNumber cs with
        | Option.some (v, r) => .ok (v, r)
        | Option.none =>
          if ['N', 'a', 'N'].isPrefixOf cs then .ok (.float "nan", cs.drop 3)
          else if ['I', 'n', 'f', 'i', 'n', 'i', 't', 'y'].isPrefixOf cs then
            .ok (.float "inf", cs.drop 8)
          else if ['-', 'I', 'n', 'f', 'i', 'n', 'i', 't', 'y'].isPrefixOf cs then
            .ok (.float "-inf", cs.drop 9)
          else .error "Expecting value"

/-- Object members after the opening brace (whitespace skipped): a
closing brace ends only an empty-so-far object here, matching the Python
scanner, which demands a quoted key after each comma. -/
def parseJObjBody (fuel : Nat) (cs : List Char) (acc : List (String × PyVal)) :
    Except String (PyVal × List Char) :=
  match fuel with
  | 0 => .error "json model: out of fuel"
  | f + 1 =>
    match cs with
    | '\x7d' :: r =>
      if acc.isEmpty then .ok (.dict acc, r)
      else .error "Expecting property name enclosed in double quotes"
    | '\x22' :: r =>
      match parseJStrBody f r with
      | .error e => .error e
      | .ok (key, r2) =>
        match jsonSkipWs r2 with
        | ':' :: r3 =>
          match parseJVal f (jsonSkipWs r3) with
          | .error e => .error e
          | .ok (v, r4) =>
            let acc' := dictInsert acc ⟨key⟩ v
            match jsonSkipWs r4 with
            | '\x7d' :: r5 => .ok (.dict acc', r5)
            | ',' :: r5 => parseJObjBody f (jsonSkipWs r5) acc'
            | _ => .error "Expecting comma delimiter"
        | _ => .error "Expecting colon delimiter"
    | _ => .error "Expecting property name enclosed in double quotes"

/-- Array members after the opening bracket (whitespace skipped). -/
def parseJArrBody (fuel : Nat) (cs : List Char) (acc : List PyVal) :
    Except String (PyVal × List Char) :=
  match fuel with
  | 0 => .error "json model: out of fuel"
  | f + 1 =>
    match cs with
    | ']' :: r =>
      if acc.isEmpty then .ok (.list acc, r)
      else
        match parseJVal f (']' :: r) with
        | .error e => .error e
        | .ok (v, r2) => afterArrElem f (acc ++ [v]) (jsonSkipWs r2)
    | _ =>
      match parseJVal f cs with
      | .error e => .error e
      | .ok (v, r2) => afterArrElem f (acc ++ [v]) (jsonSkipWs r2)

/-- After an array element: close or comma. -/
def afterArrElem (fuel : Nat) (acc : List PyVal) (cs : List Char) :
    Except String (PyVal × List Char) :=
  match fuel with
  | 0 => .error "json model: out of fuel"
  | f + 1 =>
    match cs with
    | ']' :: r => .ok (.list acc, r)
    | ',' :: r => parseJArrBody f (jsonSkipWs r) acc
    | _ => .error "Expecting comma delimiter"

/-- The body of a JSON string after the opening quote, with the escapes
of the strict Python decoder; a surrogate pair combines, a lone surrogate
collapses to the Char.ofNat fallback (model limitation, unused by the
claims). -/
def parseJStrBody (fuel : Nat) (cs : List Char) :
    Except String (List Char × List Char) :=
  match fuel with
  | 0 => .error "json model: out of fuel"
  | f + 1 =>
    match cs with
    | [] => .error "Unterminated string"
    | c :: rest =>
      if c = '\x22' then .ok ([], rest)
      else if c = '\\' then
        match rest with
        | [] => .error "Unterminated string"
        | e :: r2 =>
          if e = '\x22' || e = '\\' || e = '/' then
            match parseJStrBody f r2 with
            | .ok (tail, r) => .ok (e :: tail, r)
            | .error err => .error err
          else if e = 'n' || e = 't' || e = 'r' || e = 'b' || e = 'f' then
            let ch : Char :=
              if e = 'n' then '\n' else if e = 't' then '\t'
              else if e = 'r' then '\r' else if e = 'b' then '\x08' else '\x0c'
            match parseJStrBody f r2 with
            | .ok (tail, r) => .ok (ch :: tail, r)
            | .error err => .error err
          else if e = 'u' then
            match r2 with
            | a :: b :: c2 :: d :: r3 =>
              match hex4 a b c2 d with
              | Option.none => .error "Invalid \\uXXXX escape"
              | Option.some code =>
                if 0xD800 ≤ code && code ≤ 0xDBFF then
                  match r3 with
                  | '\\' :: 'u' :: a2 :: b2 :: c3 :: d2 :: r4 =>
                    match hex4 a2 b2 c3 d2 with
                    | Option.some code2 =>
                      if 0xDC00 ≤ code2 && code2 ≤ 0xDFFF then
                        match parseJStrBody f r4 with
                        | .ok (tail, r) =>
                          .ok (Char.ofNat
                            (0x10000 + (code - 0xD800) * 0x400 + (code2 - 0xDC00)) :: tail, r)
                        | .error err => .error err
                      else
                        match parseJStrBody f r3 with
                        | .ok (tail, r) => .ok (Char.ofNat code :: tail, r)
                        | .error err => .error err
                    | Option.none =>
                      match parseJStrBody f r3 with
                      | .ok (tail, r) => .ok (Char.ofNat code :: tail, r)
                      | .error err => .error err
                  | _ =>
                    match parseJStrBody f r3 with
                    | .ok (tail, r) => .ok (Char.ofNat code :: tail, r)
                    | .error err => .error err
                else
                  match parseJStrBody f r3 with
                  | .ok (tail, r) => .ok (Char.ofNat code :: tail, r)
                  | .error err => .error err
            | _ => .error "Invalid \\uXXXX escape"
          else .error "Invalid \\escape"
      else if c.toNat < 0x20 then .error "Invalid control character"
      else
        match parseJStrBody f rest with
        | .ok (tail, r) => .ok (c :: tail, r)
        | .error err => .error err

end

/-- Model of json.loads: parse one value, then demand only whitespace
after it. -/
def jsonLoads (s : String) : Except String PyVal :=
  let cs := jsonSkipWs s.data
  match parseJVal (2 * s.data.length + 8) cs with
  | .ok (v, rest) =>
    if (jsonSkipWs rest).isEmpty then .ok v else .error "Extra data"
  | .error e => .error e

example : jsonLoads ("\x7b\x22a\x22: 1\x7d") = .ok (.dict [("a", .int 1)]) := rfl
example : jsonLoads (" [1, \x22x\x22, null, true, 2.5] ") =
    .ok (.list [.int 1, .str "x", .none, .bool true, .float "2.5"]) := rfl
example : jsonLoads ("\x7b\x22a\x22: 1,\x7d") =
    .error "Expecting property name enclosed in double quotes" := rfl
example : jsonLoads ("01") = .error "Extra data" := rfl
example : jsonLoads ("\x7bfoo\x7d") =
    .error "Expecting property name enclosed in double quotes" := rfl
example : jsonLoads ("\x7b\x22a\x22: \x7d") = .error "Expecting value" := rfl

/-! ## Model of _extract_and_normalize_json (src/openai_client.py 126-143) -/

/-- Whitespace of the regex class \s (ASCII part). -/
def reSpaceChar (c : Char) : Bool :=
  c = ' ' || c = '\t' || c = '\n' || c = '\r' || c = '\x0b' || c = '\x0c'

/-- Do the next three characters form a triple backtick? -/
def startsTriple (cs : List Char) : Bool :=
  match cs with
  | a :: b :: c :: _ => a = '\x60' && b = '\x60' && c = '\x60'
  | _ => false

/-- Is a triple backtick present anywhere? -/
def hasTripleB : List Char → Bool
  | [] => false
  | c :: rest => startsTriple (c :: rest) || hasTripleB rest

/-- The characters before the first closing triple backtick, none if
there is no closing fence (the non-greedy group ([\s\S]*?) of the fence
regex followed by the closing fence). -/
def contentBeforeFence : List Char → Option (List Char)
  | [] => Option.none
  | c :: rest =>
    if startsTriple (c :: rest) then Option.some []
    else (contentBeforeFence rest).map (fun t => c :: t)

/-- Do the next five characters form a case-insensitive json tag and a
newline? -/
def jsonTagNl (rest : List Char) : Bool :=
  match rest with
  | a :: b :: c :: d :: e :: _ =>
    a.toLower = 'j' && b.toLower = 's' && c.toLower = 'o' && d.toLower = 'n' && e = '\n'
  | _ => false

/-- A fence match anchored after three backticks: an optional
case-insensitive json tag, a newline, then the non-greedy body up to the
first closing triple backtick.  When the header is present but no closing
fence follows, the whole anchored match fails, as with the regex
backtracking (after the three backticks the json branch and the bare
newline branch exclude each other on the next character). -/
def fenceAfterTicks (rest : List Char) : Option (List Char) :=
  if jsonTagNl rest then contentBeforeFence (rest.drop 5)
  else
    match rest with
    | '\n' :: rest2 => contentBeforeFence rest2
    | _ => Option.none

/-- The fence regex anchored at the current position. -/
def fenceAt (cs : List Char) : Option (List Char) :=
  if startsTriple cs then fenceAfterTicks (cs.drop 3) else Option.none

/-- re.search of the fence pattern: leftmost anchored match wins. -/
def findFenceCore : List Char → Option (List Char)
  | [] => Option.none
  | c :: rest =>
    match fenceAt (c :: rest) with
    | Option.some content => Option.some content
    | Option.none => findFenceCore rest

/-- Is there a closing brace here or later with only \s after it? -/
def hasCloseWsSuffix : List Char → Bool
  | [] => false
  | c :: rest => (c = '\x7d' && rest.all reSpaceChar) || hasCloseWsSuffix rest

/-- The suffix starting at the first opening brace. -/
def fromFirstBrace : List Char → Option (List Char)
  | [] => Option.none
  | c :: rest =>
    if c = '\x7b' then Option.some (c :: rest) else fromFirstBrace rest

/-- re.search of the pattern \x7b[\s\S]*\x7d\s*$ : from the first opening
brace there must be a later closing brace followed only by whitespace;
the whole match (group 0) then runs from that first opening brace to the
end of the string. -/
def braceMatch (cs : List Char) : Option (List Char) :=
  match fromFirstBrace cs with
  | Option.none => Option.none
  | Option.some t =>
    match t with
    | _ :: t1 => if hasCloseWsSuffix t1 then Option.some t else Option.none
    | [] => Option.none

/-- re.sub of ,\s*(\]|\x7d) with the bracket alone, fuelled so the
function is structurally recursive: each comma followed by whitespace and
a closing bracket or brace is dropped together with that whitespace;
scanning resumes after the bracket.  Every step consumes at least one
character, so fuel equal to the length is always enough. -/
def removeTrailingCommasF : Nat → List Char → List Char
  | 0, cs => cs
  | _, [] => []
  | f + 1, c :: rest =>
    if c = ',' then
      match rest.dropWhile reSpaceChar with
      | b :: tail =>
        if b = ']' || b = '\x7d' then b :: removeTrailingCommasF f tail
        else c :: removeTrailingCommasF f rest
      | [] => c :: removeTrailingCommasF f rest
    else c :: removeTrailingCommasF f rest

/-- re.sub of ,\s*(\]|\x7d) with the bracket alone. -/
def removeTrailingCommas (cs : List Char) : List Char :=
  removeTrailingCommasF cs.length cs

/-- The repair steps applied to the candidate after the fence step:
trailing-object extraction, the single-to-double quote rewrite,
trailing-comma removal, then json.loads. -/
def extractAfterFence (c1 : List Char) : Except String PyVal :=
  let c2 :=
    match braceMatch c1 with
    | Option.some t => t
    | Option.none => c1
  let c3 :=
    if listContainsSub ['\x27'] c2 && !listContainsSub ['\x22'] c2 then
      c2.map (fun ch => if ch = '\x27' then '\x22' else ch)
    else c2
  let c4 := removeTrailingCommas c3
  jsonLoads ⟨c4⟩

/-- The candidate-repair pipeline of _extract_and_normalize_json on
characters: strip, fence extraction (the extracted body is stripped),
then the remaining repair steps. -/
def extractCore (cs : List Char) : Except String PyVal :=
  let c0 := stripList cs
  match findFenceCore c0 with
  | Option.some inner => extractAfterFence (stripList inner)
  | Option.none => extractAfterFence c0

/-- Model of _extract_and_normalize_json. -/
def extractAndNormalizeJson (text : String) : Except String PyVal :=
  extractCore text.data

example : extractAndNormalizeJson ("\x60\x60\x60json\n\x7b\x22a\x22: 1\x7d\n\x60\x60\x60") =
    .ok (.dict [("a", .int 1)]) := rfl
example : extractAndNormalizeJson ("Sure! \x7b\x22a\x22: 1,\x7d") =
    .ok (.dict [("a", .int 1)]) := rfl
example : extractAndNormalizeJson ("\x7b\x27a\x27: 1\x7d") =
    .ok (.dict [("a", .int 1)]) := rfl
example : extractAndNormalizeJson ("no json here") = .error "Expecting value" := rfl
example : extractAndNormalizeJson ("prose \x7b\x22a\x22: [1, 2,]\x7d  ") =
    .ok (.dict [("a", .list [.int 1, .int 2])]) := rfl

/-! ## Model of _coerce_recipe_dict (src/openai_client.py 146-226) -/

/-- The inner helper to_int of _coerce_recipe_dict: int(value) with a
default on any exception. -/
def to_int (v : PyVal) (default : Int) : Int :=
  (toIntOpt v).getD default

/-- title or name or recipe_name or "Recipe". -/
def rawTitleOf (data : List (String × PyVal)) : PyVal :=
  pyOr (pyGet data "title")
    (pyOr (pyGet data "name") (pyOr (pyGet data "recipe_name") (.str "Recipe")))

/-- The alternate-title keys tried in order. -/
def altTitleKeys : List String :=
  ["title_en", "transliteration", "name_en", "english_title", "recipe_name_en"]

/-- The loop over the alternate-title keys: the first key whose raw value
is truthy wins and its str()-stripped form is kept (the loop breaks there
even when the stripped form is empty). -/
def firstAltValueGo : List String → List (String × PyVal) → Option String
  | [], _ => Option.none
  | k :: ks, data =>
    if pyTruthy (pyGet data k) then Option.some (pyStrip (pyStr (pyGet data k)))
    else firstAltValueGo ks data

/-- The alternate title selected by _coerce_recipe_dict, if any. -/
def firstAltValue (data : List (String × PyVal)) : Option String :=
  firstAltValueGo altTitleKeys data

/-- The exception text of the membership test on a non-container. -/
def pyNotInTypeError : String := "TypeError: argument of type is not iterable"

/-- Python string == value (a string equals only an equal string). -/
def pyValEqStr (a : String) : PyVal → Bool
  | .str b => a = b
  | _ => false

/-- Python alt not in container: substring test on a string, membership
on a list or on dict keys, TypeError on anything else. -/
def pyNotIn (alt : String) : PyVal → Except String Bool
  | .str t => .ok (!strContains t alt)
  | .list xs => .ok (!(xs.any (fun v => pyValEqStr alt v)))
  | .dict d => .ok (!(d.any (fun kv => kv.1 = alt)))
  | _ => .error pyNotInTypeError

/-- The display-title computation of _coerce_recipe_dict (lines 154-178):
append a nonempty non-contained alternate title, then a capitalized
nonempty cuisine, each parenthetically. -/
def computeTitle (data : List (String × PyVal)) : Except String PyVal :=
  let raw := rawTitleOf data
  let step1 : Except String PyVal :=
    match firstAltValue data with
    | Option.none => .ok raw
    | Option.some a =>
      if a = "" then .ok raw
      else
        match pyNotIn a raw with
        | .error e => .error e
        | .ok b => .ok (if b then .str (pyStr raw ++ " (" ++ a ++ ")") else raw)
  match step1 with
  | .error e => .error e
  | .ok disp =>
    let cuisineVal := pyGet data "cuisine"
    if pyTruthy cuisineVal then
      let c := pyStrip (pyStr cuisineVal)
      if c ≠ "" then .ok (.str (pyStr disp ++ " (" ++ pyCapitalize c ++ ")"))
      else .ok disp
    else .ok disp

/-- The fallback ingredient. -/
def saltIngredient : PyVal :=
  .dict [("name", .str "salt"), ("quantity", .str "to taste")]

/-- The fallback step. -/
def defaultStep : PyVal :=
  .dict [("number", .int 1), ("instruction", .str "Mix ingredients and cook until done.")]

/-- Name and quantity derived from one ingredients entry. -/
def normIngEntry (item : PyVal) : PyVal × PyVal :=
  match item with
  | .dict d =>
    (pyOr (pyGet d "name") (pyOr (pyGet d "ingredient") (.str (pyStr item))),
     pyOr (pyGet d "quantity") (pyGet d "qty"))
  | _ => (.str (pyStr item), PyVal.none)

/-- The ingredients loop: entries with a truthy derived name become
name/quantity dicts, the others are dropped. -/
def normIngs : List PyVal → List PyVal
  | [] => []
  | item :: rest =>
    let e := normIngEntry item
    if pyTruthy e.1 then
      .dict [("name", e.1), ("quantity", e.2)] :: normIngs rest
    else normIngs rest

/-- Lines 191-203: the ingredients source, its normalization, and the
salt fallback on an empty result. -/
def coerceIngredients (data : List (String × PyVal)) : List PyVal :=
  let ings := pyOr (pyGet data "ingredients") (pyOr (pyGet data "ingredient_list") (.list []))
  let normed :=
    match ings with
    | .list l => normIngs l
    | _ => []
  if normed.isEmpty then [saltIngredient] else normed

/-- Instruction and number derived from one steps entry at a 1-based
position. -/
def normStepEntry (s : PyVal) (idx : Int) : PyVal × PyVal :=
  match s with
  | .dict d =>
    (pyOr (pyGet d "instruction") (pyOr (pyGet d "step") (.str (pyStr s))),
     pyOr (pyGet d "number") (.int idx))
  | _ => (.str (pyStr s), .int idx)

/-- The steps loop: entries with a truthy instruction get int(number),
which raises (error) on a non-convertible number. -/
def normSteps : List PyVal → Int → Except String (List PyVal)
  | [], _ => .ok []
  | s :: rest, idx =>
    let e := normStepEntry s idx
    if pyTruthy e.1 then
      match toIntOpt e.2 with
      | Option.none => .error "ValueError: invalid literal for int()"
      | Option.some n =>
        match normSteps rest (idx + 1) with
        | .ok tail => .ok (.dict [("number", .int n), ("instruction", e.1)] :: tail)
        | .error err => .error err
    else normSteps rest (idx + 1)

/-- Python str.split on a literal period. -/
def splitOnDot : List Char → List (List Char)
  | [] => [[]]
  | c :: rest =>
    if c = '.' then [] :: splitOnDot rest
    else
      match splitOnDot rest with
      | h :: t => (c :: h) :: t
      | [] => [[c]]

/-- Number a list of sentences from a 1-based index. -/
def numberSteps : Int → List String → List PyVal
  | _, [] => []
  | idx, p :: rest =>
    .dict [("number", .int idx), ("instruction", .str p)] :: numberSteps (idx + 1) rest

/-- A string steps blob split at periods into trimmed nonempty numbered
sentences (lines 220-223). -/
def splitSteps (s : String) : List PyVal :=
  numberSteps 1
    (((splitOnDot s.data).map (fun p => pyStrip ⟨p⟩)).filter (fun p => p ≠ ""))

/-- Lines 206-224: the steps source, its normalization over a list, the
sentence split of a nonempty string blob, and the fallback step on an
empty result. -/
def coerceSteps (data : List (String × PyVal)) : Except String (List PyVal) :=
  let steps := pyOr (pyGet data "steps") (pyOr (pyGet data "instructions") (.list []))
  let normed : Except String (List PyVal) :=
    match steps with
    | .list l => normSteps l 1
    | .str s => .ok (if pyStrip s ≠ "" then splitSteps s else [])
    | _ => .ok []
  match normed with
  | .ok ns => .ok (if ns.isEmpty then [defaultStep] else ns)
  | .error e => .error e

/-- Model of _coerce_recipe_dict: the display title (which can raise a
TypeError through the membership test), the integer coercions with their
defaults, the zero-time-to-None rewrite, the ingredient and step
normalizations with their fallbacks, and the nutrition/tips passthrough.
On a non-dict the attribute access .get raises. -/
def coerceRecipeDict : PyVal → Except String PyVal
  | .dict data =>
    (match computeTitle data with
     | .error e => .error e
     | .ok displayTitle =>
       match coerceSteps data with
       | .error e => .error e
       | .ok steps =>
         .ok (.dict
           [("title", displayTitle),
            ("cuisine", pyGet data "cuisine"),
            ("servings", .int (to_int (pyGetD data "servings" (.int 2)) 2)),
            ("total_time_minutes",
              (let t := to_int
                (pyGetD data "total_time_minutes" (pyGetD data "time_minutes" (.int 0))) 0
               if t = 0 then PyVal.none else .int t)),
            ("ingredients", .list (coerceIngredients data)),
            ("steps", .list steps),
            ("nutrition", pyGet data "nutrition"),
            ("tips", pyGet data "tips")]))
  | _ => .error "AttributeError: object has no attribute get"

/-- The normalization pipeline as composed by the generate_* functions:
_extract_and_normalize_json then _coerce_recipe_dict. -/
def normalizeModelText (text : String) : Except String PyVal :=
  match extractAndNormalizeJson text with
  | .ok v => coerceRecipeDict v
  | .error e => .error e

example : normalizeModelText
    ("Sure! Here\x27s the recipe: \x7b\x22title\x22:\x22Dal\x22,\x22servings\x22:2,\x22ingredients\x22:[\x7b\x22name\x22:\x22lentils\x22\x7d],\x22steps\x22:[\x22boil\x22,\x22serve\x22]\x7d") =
    .ok (.dict
      [("title", .str "Dal"),
       ("cuisine", PyVal.none),
       ("servings", .int 2),
       ("total_time_minutes", PyVal.none),
       ("ingredients", .list [.dict [("name", .str "lentils"), ("quantity", PyVal.none)]]),
       ("steps", .list
         [.dict [("number", .int 1), ("instruction", .str "boil")],
          .dict [("number", .int 2), ("instruction", .str "serve")]]),
       ("nutrition", PyVal.none),
       ("tips", PyVal.none)]) := rfl

example : coerceRecipeDict (.dict
    [("title", .str "Dal"), ("title_en", .str "Lentil Stew"), ("cuisine", .str "punjabi")]) =
    .ok (.dict
      [("title", .str "Dal (Lentil Stew) (Punjabi)"),
       ("cuisine", .str "punjabi"),
       ("servings", .int 2),
       ("total_time_minutes", PyVal.none),
       ("ingredients", .list [saltIngredient]),
       ("steps", .list [defaultStep]),
       ("nutrition", PyVal.none),
       ("tips", PyVal.none)]) := rfl

/-! ## Model of _call_with_retries (src/openai_client.py 53-75) -/

/-- The transient-failure test of _call_with_retries: the lower-cased
exception text contains one of the five markers. -/
def isTransientMsg (e : String) : Bool :=
  let msg := pyLower e
  strContains msg ("429") || strContains msg ("resource exhausted") ||
    strContains msg ("quota") || strContains msg ("deadline exceeded") ||
    strContains msg ("timeout")

/-- The text of the initial last_exc placeholder. -/
def retryPlaceholderMsg : String := "Call failed after retries"

/-- The attempt loop of _call_with_retries.  A call is modelled as a
function from the 1-based attempt number to its outcome (success value or
exception text); the result records the outcome and the list of sleep
delays.  remaining counts the attempts still allowed (attempt = max is
remaining = 1, where a transient failure breaks and re-raises). -/
def retryGo {V : Type} (call : Nat → Except String V) :
    Nat → Nat → ℚ → Except String V × List ℚ
  | 0, _, _ => (.error retryPlaceholderMsg, [])
  | r + 1, attempt, delay =>
    match call attempt with
    | .ok v => (.ok v, [])
    | .error e =>
      if isTransientMsg e then
        if r = 0 then (.error e, [])
        else
          let p := retryGo call r (attempt + 1) (2 * delay)
          (p.1, delay :: p.2)
      else (.error e, [])

/-- Model of _call_with_retries: outcome and sleep delays. -/
def callWithRetries {V : Type} (call : Nat → Except String V)
    (maxAttempts : Nat) (initialDelay : ℚ) : Except String V × List ℚ :=
  retryGo call maxAttempts 1 initialDelay

/-- The exponential backoff schedule: n sleeps doubling from d. -/
def backoffDelays (d : ℚ) (n : Nat) : List ℚ :=
  (List.range n).map (fun i => 2 ^ i * d)

example : isTransientMsg ("HTTP 429 Too Many Requests") = true := by decide
example : isTransientMsg ("Resource EXHAUSTED") = true := by decide
example : isTransientMsg ("Deadline exceeded waiting") = true := by decide
example : isTransientMsg ("read timeout") = true := by decide
example : isTransientMsg ("invalid api key") = false := by decide

/-! ## Model of _language_instruction and _build_text_prompt
(src/openai_client.py 30-50 and 78-123) -/

/-- The script-mapping table of _language_instruction. -/
def scriptInstructions : List (String × String) :=
  [("gujarati", "Gujarati script (ગુજરાતી લિપિ) - use actual Gujarati Unicode characters, NOT transliteration"),
   ("hindi", "Hindi script (देवनागरी) - use actual Devanagari Unicode characters, NOT transliteration"),
   ("marathi", "Marathi script (देवनागरी) - use actual Devanagari Unicode characters, NOT transliteration"),
   ("bengali", "Bengali script (বাংলা) - use actual Bengali Unicode characters, NOT transliteration"),
   ("tamil", "Tamil script (தமிழ்) - use actual Tamil Unicode characters, NOT transliteration"),
   ("telugu", "Telugu script (తెలుగు) - use actual Telugu Unicode characters, NOT transliteration"),
   ("kannada", "Kannada script (ಕನ್ನಡ) - use actual Kannada Unicode characters, NOT transliteration"),
   ("malayalam", "Malayalam script (മലയാളം) - use actual Malayalam Unicode characters, NOT transliteration"),
   ("punjabi", "Punjabi script (ਪੰਜਾਬੀ) - use actual Gurmukhi Unicode characters, NOT transliteration")]

/-- Model of _language_instruction: (language or "english").strip().lower(),
empty falls back to "english", mapped languages get their native-script
directive, others pass through. -/
def languageInstruction (language : Option String) : String :=
  let base :=
    match language with
    | Option.none => "english"
    | Option.some s => if s = "" then "english" else s
  let target := pyLower (pyStrip base)
  if target = "" then "english"
  else
    match scriptInstructions.lookup target with
    | Option.some instr => instr
    | Option.none => target

/-- The dietary-preference model of src/schemas.py 41-48 (seven optional
booleans, in field order). -/
structure DietaryPreference where
  vegetarian : Option Bool := Option.none
  vegan : Option Bool := Option.none
  gluten_free : Option Bool := Option.none
  dairy_free : Option Bool := Option.none
  nut_free : Option Bool := Option.none
  low_carb : Option Bool := Option.none
  high_protein : Option Bool := Option.none

/-- dietary.dict(exclude_none=True).items(): the non-None fields with
their values, in declaration order. -/
def dietaryItems (d : DietaryPreference) : List (String × Bool) :=
  (match d.vegetarian with | Option.some b => [("vegetarian", b)] | Option.none => []) ++
  (match d.vegan with | Option.some b => [("vegan", b)] | Option.none => []) ++
  (match d.gluten_free with | Option.some b => [("gluten_free", b)] | Option.none => []) ++
  (match d.dairy_free with | Option.some b => [("dairy_free", b)] | Option.none => []) ++
  (match d.nut_free with | Option.some b => [("nut_free", b)] | Option.none => []) ++
  (match d.low_carb with | Option.some b => [("low_carb", b)] | Option.none => []) ++
  (match d.high_protein with | Option.some b => [("high_protein", b)] | Option.none => [])

/-- k.replace of underscores with spaces. -/
def underscoreToSpace (s : String) : String :=
  ⟨s.data.map (fun c => if c = '_' then ' ' else c)⟩

/-- The truthy dietary flag names with underscores replaced by spaces. -/
def dietaryPrefs (d : DietaryPreference) : List String :=
  ((dietaryItems d).filter (fun kv => kv.2)).map (fun kv => underscoreToSpace kv.1)

/-- The request model of src/schemas.py 51-58 (fields the prompt builder
reads; request validation is outside the claims). -/
structure RecipeFromTextRequest where
  ingredients : List String
  servings : Option Int := Option.none
  dietary : Option DietaryPreference := Option.none
  cuisine_hint : Option String := Option.none
  cooking_time_limit_minutes : Option Int := Option.none
  language : Option String := Option.none
  variation : Bool := false

/-- Truthiness of an optional string. -/
def optStrTruthy : Option String → Bool
  | Option.some s => s ≠ ""
  | Option.none => false

/-- Truthiness of an optional integer. -/
def optIntTruthy : Option Int → Bool
  | Option.some n => n ≠ 0
  | Option.none => false

/-- The four variation directives of _build_text_prompt. -/
def textVariations : List String :=
  ["IMPORTANT: Generate a COMPLETELY DIFFERENT recipe variation. Use different cooking methods, spices, or preparation style. Make it unique from any previous recipe.",
   "IMPORTANT: Create a DISTINCT recipe variation. Try different flavor profiles, cooking techniques, or ingredient combinations. Ensure it\x27s different from previous suggestions.",
   "IMPORTANT: Generate a UNIQUE recipe variation. Experiment with alternative spices, different cooking times, or varied preparation methods. Make it stand out as different.",
   "IMPORTANT: Provide a FRESH recipe variation. Use different spice combinations, alternative cooking methods, or unique presentation. Ensure variety and uniqueness."]

/-- The fixed output-schema directive of _build_text_prompt. -/
def textSchemaDirective : String :=
  "Return JSON strictly in this schema: \x7b\n  \x27title\x27: str, \x27cuisine\x27: str|null, \x27servings\x27: int, \x27total_time_minutes\x27: int|null,\n  \x27ingredients\x27: [\x7b \x27name\x27: str, \x27quantity\x27: str|null \x7d],\n  \x27steps\x27: [\x7b \x27number\x27: int, \x27instruction\x27: str \x7d],\n  \x27nutrition\x27: \x7b \x27calories\x27: int|null, \x27protein_g\x27: float|null, \x27carbs_g\x27: float|null, \x27fat_g\x27: float|null, \x27fiber_g\x27: float|null, \x27sodium_mg\x27: float|null \x7d|null,\n  \x27tips\x27: [str]|null\n\x7d\n"

/-- Model of _build_text_prompt.  The one nondeterministic step,
random.choice over the variation pool, is injected as the pick argument
(reduced modulo the pool size); everything else follows the source line
by line. -/
def buildTextPrompt (payload : RecipeFromTextRequest) (pick : Nat) : String :=
  let p1 := "You are ChefGPT, a culinary assistant for Indian audiences.\n" ++
    "Generate ONE practical recipe using ONLY the provided ingredients if possible.\n" ++
    "Respect dietary preferences and aim for balanced nutrition.\n" ++
    "Ingredients available: " ++ String.intercalate (", ") payload.ingredients ++ ".\n" ++
    (match payload.cuisine_hint with
     | Option.some s => if s ≠ "" then "Cuisine hint: " ++ s ++ ".\n" else ""
     | Option.none => "") ++
    (match payload.servings with
     | Option.some n => if n ≠ 0 then "Target servings: " ++ toString n ++ ".\n" else ""
     | Option.none => "") ++
    (match payload.cooking_time_limit_minutes with
     | Option.some n => if n ≠ 0 then "Time limit: " ++ toString n ++ " minutes.\n" else ""
     | Option.none => "") ++
    (match payload.dietary with
     | Option.some d =>
       if !(dietaryPrefs d).isEmpty then
         "Dietary: " ++ String.intercalate (", ") (dietaryPrefs d) ++ ".\n"
       else ""
     | Option.none => "")
  let p2 := ". All text (title, ingredients, steps, tips) must be in the native script, NOT transliteration. Use proper Unicode characters for the language. Keep measurements practical.\n" ++
    (if payload.variation then
       (textVariations.getD (pick % textVariations.length) "") ++ "\n"
     else "") ++
    textSchemaDirective ++
    "Only output valid JSON with double quotes, no markdown fences."
  (p1 ++ "CRITICAL: Respond entirely in ") ++ languageInstruction payload.language ++ p2

/-! ## Model of the Recipe servings constraint (src/schemas.py 30-38) -/

/-- The pydantic field constraint servings ge=1 of the Recipe schema. -/
def recipeServingsOk (n : Int) : Bool :=
  1 ≤ n

example : languageInstruction (Option.some " Hindi ") =
    "Hindi script (देवनागरी) - use actual Devanagari Unicode characters, NOT transliteration" := by decide
example : languageInstruction (Option.some "FRENCH") = "french" := by decide
example : languageInstruction Option.none = "english" := by decide
example : languageInstruction (Option.some "  ") = "english" := by decide

/-! ## Shape of a successful coercion -/

/-- A successful _coerce_recipe_dict run determines every field of the
output dict from the input: title and steps are the values of the two
fallible sub-computations, everything else is total. -/
theorem coerce_ok_elim (d : List (String × PyVal)) (r : PyVal)
    (h : coerceRecipeDict (.dict d) = .ok r) :
    ∃ tv sl, computeTitle d = .ok tv ∧ coerceSteps d = .ok sl ∧
      r = .dict
        [("title", tv), ("cuisine", pyGet d "cuisine"),
         ("servings", .int (to_int (pyGetD d "servings" (.int 2)) 2)),
         ("total_time_minutes",
           (let t := to_int
             (pyGetD d "total_time_minutes" (pyGetD d "time_minutes" (.int 0))) 0
            if t = 0 then PyVal.none else .int t)),
         ("ingredients", .list (coerceIngredients d)),
         ("steps", .list sl),
         ("nutrition", pyGet d "nutrition"), ("tips", pyGet d "tips")] := by
  simp only [coerceRecipeDict] at h
  cases h1 : computeTitle d with
  | error e => rw [h1] at h; simp at h
  | ok tv =>
    rw [h1] at h
    cases h2 : coerceSteps d with
    | error e => rw [h2] at h; simp at h
    | ok sl =>
      rw [h2] at h
      simp only [Except.ok.injEq] at h
      exact ⟨tv, sl, rfl, rfl, h.symm⟩

/-- A successful steps coercion never returns an empty list. -/
theorem coerceSteps_ok_ne_nil (d : List (String × PyVal)) (sl : List PyVal)
    (h : coerceSteps d = .ok sl) : sl ≠ [] := by
  simp only [coerceSteps] at h
  cases hn : (match pyOr (pyGet d "steps") (pyOr (pyGet d "instructions") (.list [])) with
    | PyVal.list l => normSteps l 1
    | PyVal.str s => .ok (if pyStrip s ≠ "" then splitSteps s else [])
    | _ => (.ok [] : Except String (List PyVal))) with
  | error e => rw [hn] at h; simp at h
  | ok ns =>
    rw [hn] at h
    simp only [Except.ok.injEq] at h
    subst h
    cases hb : ns.isEmpty with
    | true => simp [hb]
    | false =>
      simp only [hb, Bool.false_eq_true, if_false]
      intro hc
      rw [hc] at hb
      simp at hb

/-- The ingredients result is never empty. -/
theorem coerceIngredients_ne_nil (d : List (String × PyVal)) :
    coerceIngredients d ≠ [] := by
  simp only [coerceIngredients]
  cases hb : (match pyOr (pyGet d "ingredients") (pyOr (pyGet d "ingredient_list") (.list [])) with
    | PyVal.list l => normIngs l
    | _ => ([] : List PyVal)).isEmpty with
  | true => simp [hb]
  | false =>
    simp only [hb, Bool.false_eq_true, if_false]
    intro hc
    rw [hc] at hb
    simp at hb

/-! ## Claims C9, C10, C8, C7 -/

/-- C9: in the coerced dict, servings is the int coercion of the source
servings defaulting to 2, and total_time_minutes is the int coercion of
total_time_minutes (falling back to time_minutes) with a coerced zero
mapped to None rather than kept as 0. -/
theorem claim9_int_coercions (d r : List (String × PyVal))
    (h : coerceRecipeDict (.dict d) = .ok (.dict r)) :
    r.lookup "servings" = Option.some (.int (to_int (pyGetD d "servings" (.int 2)) 2)) ∧
    r.lookup "total_time_minutes" =
      Option.some
        (if to_int (pyGetD d "total_time_minutes" (pyGetD d "time_minutes" (.int 0))) 0 = 0
         then PyVal.none
         else .int (to_int (pyGetD d "total_time_minutes" (pyGetD d "time_minutes" (.int 0))) 0)) := by
  obtain ⟨tv, sl, h1, h2, h3⟩ := coerce_ok_elim d _ h
  simp only [PyVal.dict.injEq] at h3
  subst h3
  exact ⟨rfl, rfl⟩

/-- C9 witness: servings "5" is coerced to the integer 5 and a literal
zero total_time_minutes is mapped to None. -/
theorem claim9_int_coercions_witness :
    List.lookup ("servings")
        [("title", PyVal.str "T"), ("cuisine", PyVal.none), ("servings", PyVal.int 5),
         ("total_time_minutes", PyVal.none), ("ingredients", PyVal.list [saltIngredient]),
         ("steps", PyVal.list [defaultStep]), ("nutrition", PyVal.none), ("tips", PyVal.none)] =
      Option.some (PyVal.int 5) ∧
    List.lookup ("total_time_minutes")
        [("title", PyVal.str "T"), ("cuisine", PyVal.none), ("servings", PyVal.int 5),
         ("total_time_minutes", PyVal.none), ("ingredients", PyVal.list [saltIngredient]),
         ("steps", PyVal.list [defaultStep]), ("nutrition", PyVal.none), ("tips", PyVal.none)] =
      Option.some PyVal.none := by
  have h := claim9_int_coercions
    [("title", PyVal.str "T"), ("servings", PyVal.str "5"), ("total_time_minutes", PyVal.int 0)]
    [("title", PyVal.str "T"), ("cuisine", PyVal.none), ("servings", PyVal.int 5),
     ("total_time_minutes", PyVal.none), ("ingredients", PyVal.list [saltIngredient]),
     ("steps", PyVal.list [defaultStep]), ("nutrition", PyVal.none), ("tips", PyVal.none)]
    rfl
  exact ⟨h.1, h.2⟩

/-- C10: the servings coercion substitutes the default 2 only when int
conversion fails; an integer servings below 1 passes through unchanged
into the coerced dict, and the Recipe schema constraint servings ge=1
then rejects it. -/
theorem claim10_servings_validation :
    (∀ (v : PyVal) (m : Int), toIntOpt v = Option.some m → to_int v 2 = m) ∧
    (∀ n : Int, coerceRecipeDict (.dict [("title", .str "X"), ("servings", .int n)]) =
       .ok (.dict
         [("title", .str "X"), ("cuisine", PyVal.none), ("servings", .int n),
          ("total_time_minutes", PyVal.none), ("ingredients", .list [saltIngredient]),
          ("steps", .list [defaultStep]), ("nutrition", PyVal.none), ("tips", PyVal.none)])) ∧
    (∀ n : Int, n < 1 → recipeServingsOk n = false) := by
  refine ⟨?_, ?_, ?_⟩
  · intro v m hm
    simp [to_int, hm]
  · intro n
    rfl
  · intro n hn
    simp only [recipeServingsOk, decide_eq_false_iff_not]
    omega

/-- C10 witness: int conversion of "7" does not touch the default, a
servings of 0 survives coercion unchanged, and 0 fails the schema
constraint. -/
theorem claim10_servings_validation_witness :
    to_int (.str "7") 2 = 7 ∧
    coerceRecipeDict (.dict [("title", .str "X"), ("servings", .int 0)]) =
      .ok (.dict
        [("title", .str "X"), ("cuisine", PyVal.none), ("servings", .int 0),
         ("total_time_minutes", PyVal.none), ("ingredients", .list [saltIngredient]),
         ("steps", .list [defaultStep]), ("nutrition", PyVal.none), ("tips", PyVal.none)]) ∧
    recipeServingsOk 0 = false :=
  ⟨claim10_servings_validation.1 (.str "7") 7 (by decide),
   claim10_servings_validation.2.1 0,
   claim10_servings_validation.2.2 0 (by decide)⟩

/-- C8: with none of the ingredients/ingredient_list/steps/instructions
keys present the coercion emits exactly the salt fallback ingredient and
the single fallback step; and every successful coercion has non-empty
ingredient and step lists. -/
theorem claim8_fallbacks_nonempty :
    (∀ (d r : List (String × PyVal)),
      d.lookup "ingredients" = Option.none → d.lookup "ingredient_list" = Option.none →
      d.lookup "steps" = Option.none → d.lookup "instructions" = Option.none →
      coerceRecipeDict (.dict d) = .ok (.dict r) →
      r.lookup "ingredients" = Option.some (.list [saltIngredient]) ∧
      r.lookup "steps" = Option.some (.list [defaultStep])) ∧
    (∀ (d r : List (String × PyVal)), coerceRecipeDict (.dict d) = .ok (.dict r) →
      ∃ l1 l2, r.lookup "ingredients" = Option.some (.list l1) ∧ l1 ≠ [] ∧
        r.lookup "steps" = Option.some (.list l2) ∧ l2 ≠ []) := by
  constructor
  · intro d r hi1 hi2 hs1 hs2 h
    obtain ⟨tv, sl, h1, h2, h3⟩ := coerce_ok_elim d _ h
    simp only [PyVal.dict.injEq] at h3
    subst h3
    have hci : coerceIngredients d = [saltIngredient] := by
      simp [coerceIngredients, pyGet, hi1, hi2, pyOr, pyTruthy, normIngs]
    have hcs : coerceSteps d = .ok [defaultStep] := by
      simp [coerceSteps, pyGet, hs1, hs2, pyOr, pyTruthy, normSteps]
    rw [h2] at hcs
    simp only [Except.ok.injEq] at hcs
    subst hcs
    rw [hci]
    exact ⟨rfl, rfl⟩
  · intro d r h
    obtain ⟨tv, sl, h1, h2, h3⟩ := coerce_ok_elim d _ h
    simp only [PyVal.dict.injEq] at h3
    subst h3
    exact ⟨coerceIngredients d, sl, rfl, coerceIngredients_ne_nil d, rfl,
      coerceSteps_ok_ne_nil d sl h2⟩

/-- C8 witness: a dict with only a title gets exactly the salt fallback
ingredient and the single fallback step. -/
theorem claim8_fallbacks_nonempty_witness :
    List.lookup ("ingredients")
        [("title", PyVal.str "T"), ("cuisine", PyVal.none), ("servings", PyVal.int 2),
         ("total_time_minutes", PyVal.none), ("ingredients", PyVal.list [saltIngredient]),
         ("steps", PyVal.list [defaultStep]), ("nutrition", PyVal.none), ("tips", PyVal.none)] =
      Option.some (PyVal.list [saltIngredient]) ∧
    List.lookup ("steps")
        [("title", PyVal.str "T"), ("cuisine", PyVal.none), ("servings", PyVal.int 2),
         ("total_time_minutes", PyVal.none), ("ingredients", PyVal.list [saltIngredient]),
         ("steps", PyVal.list [defaultStep]), ("nutrition", PyVal.none), ("tips", PyVal.none)] =
      Option.some (PyVal.list [defaultStep]) :=
  claim8_fallbacks_nonempty.1 [("title", PyVal.str "T")]
    [("title", PyVal.str "T"), ("cuisine", PyVal.none), ("servings", PyVal.int 2),
     ("total_time_minutes", PyVal.none), ("ingredients", PyVal.list [saltIngredient]),
     ("steps", PyVal.list [defaultStep]), ("nutrition", PyVal.none), ("tips", PyVal.none)]
    rfl rfl rfl rfl rfl

/-- The claim's reading of the name derived from one ingredients entry:
for a dict the name key, else the ingredient key, else str of the entry;
for a bare value its str. -/
def specDerivedName (item : PyVal) : PyVal :=
  match item with
  | .dict di => pyOr (pyGet di "name") (pyOr (pyGet di "ingredient") (.str (pyStr item)))
  | _ => .str (pyStr item)

/-- The claim's reading of the quantity derived from one ingredients
entry: for a dict the quantity key else the qty key; for a bare value
None. -/
def specDerivedQty (item : PyVal) : PyVal :=
  match item with
  | .dict di => pyOr (pyGet di "quantity") (pyGet di "qty")
  | _ => PyVal.none

/-- The claim's per-entry description of ingredient normalization: each
entry with a truthy derivable name becomes a name/quantity pair, the
others are dropped, and an empty result is replaced by the single salt
default. -/
def specNormalizeIngredients (l : List PyVal) : List PyVal :=
  let normed := l.filterMap (fun item =>
    if pyTruthy (specDerivedName item) then
      Option.some (PyVal.dict
        [("name", specDerivedName item), ("quantity", specDerivedQty item)])
    else Option.none)
  if normed.isEmpty then [saltIngredient] else normed

/-- The source's ingredients loop computes exactly the claim's filterMap. -/
theorem normIngs_eq_filterMap (l : List PyVal) :
    normIngs l = l.filterMap (fun item =>
      if pyTruthy (specDerivedName item) then
        Option.some (PyVal.dict
          [("name", specDerivedName item), ("quantity", specDerivedQty item)])
      else Option.none) := by
  induction l with
  | nil => rfl
  | cons item rest ih =>
    have hn : (normIngEntry item).1 = specDerivedName item := by
      cases item <;> rfl
    have hq : (normIngEntry item).2 = specDerivedQty item := by
      cases item <;> rfl
    simp only [normIngs, List.filterMap_cons, hn, hq]
    by_cases ht : pyTruthy (specDerivedName item)
    · simp [ht, ih]
    · simp [ht, ih]

/-- C7: whenever the ingredients source (the ingredients key, else the
ingredient_list key, else the empty list) is a list, the coerced output's
ingredients are exactly the per-entry normalization described by the
claim: name/quantity pairs for entries with a derivable (truthy) name,
dropped entries otherwise, and the salt default when nothing is left. -/
theorem claim7_ingredients_normalization
    (d r : List (String × PyVal)) (l : List PyVal)
    (hsrc : pyOr (pyGet d "ingredients") (pyOr (pyGet d "ingredient_list") (.list [])) = .list l)
    (h : coerceRecipeDict (.dict d) = .ok (.dict r)) :
    r.lookup "ingredients" = Option.some (.list (specNormalizeIngredients l)) := by
  obtain ⟨tv, sl, h1, h2, h3⟩ := coerce_ok_elim d _ h
  simp only [PyVal.dict.injEq] at h3
  subst h3
  have hc : coerceIngredients d = specNormalizeIngredients l := by
    simp only [coerceIngredients, hsrc, specNormalizeIngredients, normIngs_eq_filterMap]
  calc List.lookup ("ingredients")
        [("title", tv), ("cuisine", pyGet d "cuisine"),
         ("servings", .int (to_int (pyGetD d "servings" (.int 2)) 2)),
         ("total_time_minutes",
           (let t := to_int
             (pyGetD d "total_time_minutes" (pyGetD d "time_minutes" (.int 0))) 0
            if t = 0 then PyVal.none else .int t)),
         ("ingredients", .list (coerceIngredients d)),
         ("steps", .list sl),
         ("nutrition", pyGet d "nutrition"), ("tips", pyGet d "tips")] =
      Option.some (PyVal.list (coerceIngredients d)) := rfl
    _ = Option.some (.list (specNormalizeIngredients l)) := by rw [hc]

/-- C7 witness: a bare empty-string entry has no derivable name, is
dropped, and the empty result falls back to the salt default. -/
theorem claim7_ingredients_normalization_witness :
    List.lookup ("ingredients")
        [("title", PyVal.str "T"), ("cuisine", PyVal.none), ("servings", PyVal.int 2),
         ("total_time_minutes", PyVal.none), ("ingredients", PyVal.list [saltIngredient]),
         ("steps", PyVal.list [defaultStep]), ("nutrition", PyVal.none), ("tips", PyVal.none)] =
      Option.some (PyVal.list (specNormalizeIngredients [PyVal.str ""])) :=
  claim7_ingredients_normalization
    [("title", PyVal.str "T"), ("ingredients", PyVal.list [PyVal.str ""])]
    [("title", PyVal.str "T"), ("cuisine", PyVal.none), ("servings", PyVal.int 2),
     ("total_time_minutes", PyVal.none), ("ingredients", PyVal.list [saltIngredient]),
     ("steps", PyVal.list [defaultStep]), ("nutrition", PyVal.none), ("tips", PyVal.none)]
    [PyVal.str ""] rfl rfl

/-- C5 counterexample: with title "Dal", a present-but-empty title_en and
a later transliteration "Daal", the claim's first PRESENT alternate key
(title_en, whose empty value is a substring of everything) predicts the
title "Dal", but the code skips the falsy title_en, picks the
transliteration and produces "Dal (Daal)". -/
theorem claim5_title_composition_counterexample :
    List.lookup ("title_en")
        [("title", PyVal.str "Dal"), ("title_en", PyVal.str ""),
         ("transliteration", PyVal.str "Daal")] = Option.some (PyVal.str "") ∧
    coerceRecipeDict (.dict
        [("title", PyVal.str "Dal"), ("title_en", PyVal.str ""),
         ("transliteration", PyVal.str "Daal")]) =
      .ok (.dict
        [("title", PyVal.str "Dal (Daal)"), ("cuisine", PyVal.none),
         ("servings", PyVal.int 2), ("total_time_minutes", PyVal.none),
         ("ingredients", PyVal.list [saltIngredient]),
         ("steps", PyVal.list [defaultStep]),
         ("nutrition", PyVal.none), ("tips", PyVal.none)]) ∧
    ("Dal (Daal)" : String) ≠ "Dal" :=
  ⟨rfl, rfl, by decide⟩

/-- C5 amended: the Dal/Lentil Stew/punjabi example produces the title
"Dal (Lentil Stew) (Punjabi)"; in general the first alternate-title key
with a TRUTHY value is selected, its str()-stripped form is appended
parenthetically when nonempty and not already contained in the (string)
primary title, and a truthy cuisine value's stripped str() is appended
capitalized. -/
theorem claim5_title_composition :
    (coerceRecipeDict (.dict
        [("title", PyVal.str "Dal"), ("title_en", PyVal.str "Lentil Stew"),
         ("cuisine", PyVal.str "punjabi")]) =
      .ok (.dict
        [("title", PyVal.str "Dal (Lentil Stew) (Punjabi)"),
         ("cuisine", PyVal.str "punjabi"), ("servings", PyVal.int 2),
         ("total_time_minutes", PyVal.none),
         ("ingredients", PyVal.list [saltIngredient]),
         ("steps", PyVal.list [defaultStep]),
         ("nutrition", PyVal.none), ("tips", PyVal.none)])) ∧
    (∀ (d r : List (String × PyVal)) (t a : String),
      d.lookup "title" = Option.some (.str t) → t ≠ "" →
      firstAltValue d = Option.some a → a ≠ "" →
      strContains t a = false →
      pyGet d "cuisine" = PyVal.none →
      coerceRecipeDict (.dict d) = .ok (.dict r) →
      r.lookup "title" = Option.some (.str (t ++ " (" ++ a ++ ")"))) ∧
    (∀ (d r : List (String × PyVal)) (t c : String),
      d.lookup "title" = Option.some (.str t) → t ≠ "" →
      firstAltValue d = Option.none →
      pyGet d "cuisine" = .str c → c ≠ "" → pyStrip c ≠ "" →
      coerceRecipeDict (.dict d) = .ok (.dict r) →
      r.lookup "title" = Option.some (.str (t ++ " (" ++ pyCapitalize (pyStrip c) ++ ")"))) := by
  refine ⟨rfl, ?_, ?_⟩
  · intro d r t a ht htne halt hane hcon hcui h
    obtain ⟨tv, sl, h1, h2, h3⟩ := coerce_ok_elim d _ h
    simp only [PyVal.dict.injEq] at h3
    subst h3
    have hraw : rawTitleOf d = .str t := by
      simp [rawTitleOf, pyGet, ht, pyOr, pyTruthy, htne]
    have htit : computeTitle d = .ok (.str (t ++ " (" ++ a ++ ")")) := by
      simp only [computeTitle, hraw, halt, hcui]
      rw [if_neg hane]
      simp [pyNotIn, hcon, pyStr, pyTruthy]
    rw [h1] at htit
    simp only [Except.ok.injEq] at htit
    subst htit
    rfl
  · intro d r t c ht htne halt hcui hcne hcsne h
    obtain ⟨tv, sl, h1, h2, h3⟩ := coerce_ok_elim d _ h
    simp only [PyVal.dict.injEq] at h3
    subst h3
    have hraw : rawTitleOf d = .str t := by
      simp [rawTitleOf, pyGet, ht, pyOr, pyTruthy, htne]
    have htit : computeTitle d = .ok (.str (t ++ " (" ++ pyCapitalize (pyStrip c) ++ ")")) := by
      simp only [computeTitle, hraw, halt, hcui]
      simp [pyTruthy, hcne, pyStr, hcsne]
    rw [h1] at htit
    simp only [Except.ok.injEq] at htit
    subst htit
    rfl

/-- C5 witness: the general alternate-title clause applied to a concrete
dict with a hindi-script style alternate name. -/
theorem claim5_title_composition_witness :
    List.lookup ("title")
        [("title", PyVal.str ("Khichdi (Rice Lentil Mash)")), ("cuisine", PyVal.none),
         ("servings", PyVal.int 2), ("total_time_minutes", PyVal.none),
         ("ingredients", PyVal.list [saltIngredient]),
         ("steps", PyVal.list [defaultStep]),
         ("nutrition", PyVal.none), ("tips", PyVal.none)] =
      Option.some (PyVal.str ("Khichdi (Rice Lentil Mash)")) :=
  claim5_title_composition.2.1
    [("title", PyVal.str "Khichdi"), ("name_en", PyVal.str "Rice Lentil Mash")]
    [("title", PyVal.str ("Khichdi (Rice Lentil Mash)")), ("cuisine", PyVal.none),
     ("servings", PyVal.int 2), ("total_time_minutes", PyVal.none),
     ("ingredients", PyVal.list [saltIngredient]),
     ("steps", PyVal.list [defaultStep]),
     ("nutrition", PyVal.none), ("tips", PyVal.none)]
    ("Khichdi") ("Rice Lentil Mash")
    rfl (by decide) rfl (by decide) (by decide) rfl rfl

/-- C3 counterexample: the text is a valid JSON object (the extraction
locates and parses it), yet normalization raises: the coercion step hits
a TypeError in the membership test alt not in raw_title because the title
is the integer 5 while a truthy title_en is present. -/
theorem claim3_never_raises_counterexample :
    extractAndNormalizeJson ("\x7b\x22title\x22: 5, \x22title_en\x22: \x22x\x22\x7d") =
      .ok (.dict [("title", PyVal.int 5), ("title_en", PyVal.str "x")]) ∧
    normalizeModelText ("\x7b\x22title\x22: 5, \x22title_en\x22: \x22x\x22\x7d") =
      .error pyNotInTypeError :=
  ⟨rfl, rfl⟩

/-- C3 amended: the only failure points of normalization after a JSON
object has been extracted are the display-title computation (the
membership test on a non-container title) and the step-number int()
conversion; whenever those two sub-computations succeed, the whole
normalization succeeds and returns the coerced dict. -/
theorem claim3_normalize_raises (text : String) (d : List (String × PyVal))
    (tv : PyVal) (sl : List PyVal)
    (hx : extractAndNormalizeJson text = .ok (.dict d))
    (h1 : computeTitle d = .ok tv)
    (h2 : coerceSteps d = .ok sl) :
    normalizeModelText text = .ok (.dict
      [("title", tv), ("cuisine", pyGet d "cuisine"),
       ("servings", .int (to_int (pyGetD d "servings" (.int 2)) 2)),
       ("total_time_minutes",
         (let t := to_int
           (pyGetD d "total_time_minutes" (pyGetD d "time_minutes" (.int 0))) 0
          if t = 0 then PyVal.none else .int t)),
       ("ingredients", .list (coerceIngredients d)),
       ("steps", .list sl),
       ("nutrition", pyGet d "nutrition"), ("tips", pyGet d "tips")]) := by
  have hm : normalizeModelText text = coerceRecipeDict (.dict d) := by
    simp [normalizeModelText, hx]
  rw [hm]
  simp only [coerceRecipeDict, h1, h2]

/-- C3 witness: a plain well-shaped model text normalizes successfully. -/
theorem claim3_normalize_raises_witness :
    normalizeModelText ("\x7b\x22title\x22: \x22Soup\x22\x7d") =
      .ok (.dict
        [("title", PyVal.str "Soup"), ("cuisine", PyVal.none),
         ("servings", PyVal.int 2), ("total_time_minutes", PyVal.none),
         ("ingredients", PyVal.list [saltIngredient]),
         ("steps", PyVal.list [defaultStep]),
         ("nutrition", PyVal.none), ("tips", PyVal.none)]) :=
  claim3_normalize_raises ("\x7b\x22title\x22: \x22Soup\x22\x7d")
    [("title", PyVal.str "Soup")] (PyVal.str "Soup") [defaultStep] rfl rfl rfl

/-- The ingredients loop is the identity on canonical entries. -/
theorem normIngs_canonical (l : List PyVal)
    (h : ∀ item ∈ l, ∃ nm q, item = PyVal.dict [("name", .str nm), ("quantity", q)] ∧
      nm ≠ "" ∧ (q = PyVal.none ∨ ∃ qs, q = .str qs ∧ qs ≠ "")) :
    normIngs l = l := by
  induction l with
  | nil => rfl
  | cons item rest ih =>
    obtain ⟨nm, q, hitem, hnm, hq⟩ := h item (List.mem_cons_self _ _)
    subst hitem
    have hname : (normIngEntry (PyVal.dict [("name", .str nm), ("quantity", q)])).1 = .str nm := by
      simp [normIngEntry, pyGet, pyOr, pyTruthy, hnm]
    have hqty : (normIngEntry (PyVal.dict [("name", .str nm), ("quantity", q)])).2 = q := by
      rcases hq with hq | ⟨qs, hq, hqs⟩
      · subst hq; rfl
      · subst hq
        have hl : pyGet [("name", PyVal.str nm), ("quantity", PyVal.str qs)] "quantity" =
            PyVal.str qs := rfl
        simp [normIngEntry, hl, pyOr, pyTruthy, hqs]
    have htr : pyTruthy (.str nm) = true := by simp [pyTruthy, hnm]
    have ih' := ih (fun i hi => h i (List.mem_cons_of_mem _ hi))
    simp [normIngs, hname, hqty, htr, ih']

/-- The steps loop is the identity on canonical entries, from any
starting index. -/
theorem normSteps_canonical (l : List PyVal)
    (h : ∀ s ∈ l, ∃ (n : Int) (ins : String),
      s = PyVal.dict [("number", .int n), ("instruction", .str ins)] ∧ 1 ≤ n ∧ ins ≠ "") :
    ∀ idx : Int, normSteps l idx = .ok l := by
  induction l with
  | nil => intro idx; rfl
  | cons s rest ih =>
    intro idx
    obtain ⟨n, ins, hs, hn, hins⟩ := h s (List.mem_cons_self _ _)
    subst hs
    have hl1 : pyGet [("number", PyVal.int n), ("instruction", PyVal.str ins)] "instruction" =
        PyVal.str ins := rfl
    have hl3 : pyGet [("number", PyVal.int n), ("instruction", PyVal.str ins)] "number" =
        PyVal.int n := rfl
    have hinstr :
        (normStepEntry (PyVal.dict [("number", .int n), ("instruction", .str ins)]) idx).1 =
          .str ins := by
      simp [normStepEntry, hl1, pyOr, pyTruthy, hins]
    have hnz : n ≠ 0 := by omega
    have hnum :
        (normStepEntry (PyVal.dict [("number", .int n), ("instruction", .str ins)]) idx).2 =
          .int n := by
      simp [normStepEntry, hl3, pyOr, pyTruthy, hnz]
    have htr : pyTruthy (.str ins) = true := by simp [pyTruthy, hins]
    have ih' := ih (fun i hi => h i (List.mem_cons_of_mem _ hi)) (idx + 1)
    simp [normSteps, hinstr, hnum, htr, ih', toIntOpt]

/-- The canonical dict shape: all eight output keys, in output order. -/
def canonRecipeDict (t : String) (sv : Int) (tt : PyVal) (ings stps : List PyVal)
    (nut tips : PyVal) : List (String × PyVal) :=
  [("title", .str t), ("cuisine", PyVal.none), ("servings", .int sv),
   ("total_time_minutes", tt), ("ingredients", .list ings), ("steps", .list stps),
   ("nutrition", nut), ("tips", tips)]

/-- C2 amended: the coercion is the identity on canonical dicts whose
cuisine is null (a non-null cuisine is appended to the title, breaking
idempotence), whose total_time_minutes is null or a positive integer,
whose ingredient entries are exactly name (non-empty string) and quantity
(null or non-empty string), and whose step entries are exactly number
(integer at least 1) and instruction (non-empty string). -/
theorem claim2_normalizer_identity (t : String) (sv : Int) (tt : PyVal)
    (ings stps : List PyVal) (nut tips : PyVal)
    (ht : t ≠ "")
    (htt : tt = PyVal.none ∨ ∃ m : Int, tt = .int m ∧ 1 ≤ m)
    (hingsne : ings ≠ [])
    (hings : ∀ item ∈ ings, ∃ nm q, item = PyVal.dict [("name", .str nm), ("quantity", q)] ∧
      nm ≠ "" ∧ (q = PyVal.none ∨ ∃ qs, q = .str qs ∧ qs ≠ ""))
    (hstpsne : stps ≠ [])
    (hstps : ∀ s ∈ stps, ∃ (n : Int) (ins : String),
      s = PyVal.dict [("number", .int n), ("instruction", .str ins)] ∧ 1 ≤ n ∧ ins ≠ "") :
    coerceRecipeDict (.dict (canonRecipeDict t sv tt ings stps nut tips)) =
      .ok (.dict (canonRecipeDict t sv tt ings stps nut tips)) := by
  have halt : firstAltValue (canonRecipeDict t sv tt ings stps nut tips) = Option.none := rfl
  have hcui : pyGet (canonRecipeDict t sv tt ings stps nut tips) "cuisine" = PyVal.none := rfl
  have hraw : rawTitleOf (canonRecipeDict t sv tt ings stps nut tips) = .str t := by
    simp [rawTitleOf, canonRecipeDict, pyGet, pyOr, pyTruthy, ht]
  have htitle : computeTitle (canonRecipeDict t sv tt ings stps nut tips) = .ok (.str t) := by
    simp [computeTitle, hraw, halt, hcui, pyTruthy]
  have hie : ings.isEmpty = false := by
    cases ings with
    | nil => exact absurd rfl hingsne
    | cons a l => rfl
  have hse : stps.isEmpty = false := by
    cases stps with
    | nil => exact absurd rfl hstpsne
    | cons a l => rfl
  have hig : pyGet (canonRecipeDict t sv tt ings stps nut tips) "ingredients" = .list ings := rfl
  have hings' : coerceIngredients (canonRecipeDict t sv tt ings stps nut tips) = ings := by
    simp [coerceIngredients, hig, pyOr, pyTruthy, hie, normIngs_canonical ings hings]
  have hstg : pyGet (canonRecipeDict t sv tt ings stps nut tips) "steps" = .list stps := rfl
  have hsts : coerceSteps (canonRecipeDict t sv tt ings stps nut tips) = .ok stps := by
    simp [coerceSteps, hstg, pyOr, pyTruthy, hse, normSteps_canonical stps hstps 1]
  have htime :
      (if to_int (pyGetD (canonRecipeDict t sv tt ings stps nut tips) "total_time_minutes"
          (pyGetD (canonRecipeDict t sv tt ings stps nut tips) "time_minutes" (.int 0))) 0 = 0
       then PyVal.none
       else .int (to_int (pyGetD (canonRecipeDict t sv tt ings stps nut tips) "total_time_minutes"
          (pyGetD (canonRecipeDict t sv tt ings stps nut tips) "time_minutes" (.int 0))) 0)) = tt := by
    rcases htt with h0 | ⟨m, hm, hm1⟩
    · subst h0; rfl
    · subst hm
      have hlk : pyGetD (canonRecipeDict t sv (PyVal.int m) ings stps nut tips)
          "total_time_minutes"
          (pyGetD (canonRecipeDict t sv (PyVal.int m) ings stps nut tips)
            "time_minutes" (.int 0)) = PyVal.int m := rfl
      have hti : to_int (PyVal.int m) 0 = m := rfl
      have hmz : m ≠ 0 := by omega
      rw [hlk, hti, if_neg hmz]
  simp only [coerceRecipeDict, htitle, hsts, hings']
  rw [show pyGetD (canonRecipeDict t sv tt ings stps nut tips) "servings" (.int 2) = .int sv from rfl]
  rw [show to_int (PyVal.int sv) 2 = sv from rfl]
  simp only [canonRecipeDict] at htime ⊢
  rw [htime]
  rfl

/-- C2 counterexample: a dict already in the canonical Recipe shape with
a present (non-null) cuisine is NOT mapped to an equal dict: the code
appends the capitalized cuisine to the title, so the title values differ
and the output is not equal to the input. -/
theorem claim2_normalizer_identity_counterexample :
    coerceRecipeDict (.dict
        [("title", PyVal.str "Dal"), ("cuisine", PyVal.str "punjabi"),
         ("servings", PyVal.int 2), ("total_time_minutes", PyVal.none),
         ("ingredients", PyVal.list [PyVal.dict [("name", PyVal.str "rice"), ("quantity", PyVal.none)]]),
         ("steps", PyVal.list [PyVal.dict [("number", PyVal.int 1), ("instruction", PyVal.str "cook")]]),
         ("nutrition", PyVal.none), ("tips", PyVal.none)]) =
      .ok (.dict
        [("title", PyVal.str "Dal (Punjabi)"), ("cuisine", PyVal.str "punjabi"),
         ("servings", PyVal.int 2), ("total_time_minutes", PyVal.none),
         ("ingredients", PyVal.list [PyVal.dict [("name", PyVal.str "rice"), ("quantity", PyVal.none)]]),
         ("steps", PyVal.list [PyVal.dict [("number", PyVal.int 1), ("instruction", PyVal.str "cook")]]),
         ("nutrition", PyVal.none), ("tips", PyVal.none)]) ∧
    ("Dal (Punjabi)" : String) ≠ "Dal" :=
  ⟨rfl, by decide⟩

/-- C2 witness: the identity on a concrete canonical dict with null
cuisine. -/
theorem claim2_normalizer_identity_witness :
    coerceRecipeDict (.dict (canonRecipeDict ("Dal") 2 PyVal.none
        [PyVal.dict [("name", PyVal.str "rice"), ("quantity", PyVal.none)]]
        [PyVal.dict [("number", PyVal.int 1), ("instruction", PyVal.str "cook")]]
        PyVal.none PyVal.none)) =
      .ok (.dict (canonRecipeDict ("Dal") 2 PyVal.none
        [PyVal.dict [("name", PyVal.str "rice"), ("quantity", PyVal.none)]]
        [PyVal.dict [("number", PyVal.int 1), ("instruction", PyVal.str "cook")]]
        PyVal.none PyVal.none)) :=
  claim2_normalizer_identity ("Dal") 2 PyVal.none
    [PyVal.dict [("name", PyVal.str "rice"), ("quantity", PyVal.none)]]
    [PyVal.dict [("number", PyVal.int 1), ("instruction", PyVal.str "cook")]]
    PyVal.none PyVal.none
    (by decide) (Or.inl rfl) (List.cons_ne_nil _ _)
    (by
      intro item hi
      rw [List.mem_singleton] at hi
      subst hi
      exact ⟨"rice", PyVal.none, rfl, by decide, Or.inl rfl⟩)
    (List.cons_ne_nil _ _)
    (by
      intro s hi
      rw [List.mem_singleton] at hi
      subst hi
      exact ⟨1, "cook", rfl, le_refl 1, by decide⟩)

/-- Unfolding the backoff schedule by one sleep. -/
theorem backoffDelays_cons (dl : ℚ) (k : Nat) :
    backoffDelays dl (k + 1) = dl :: backoffDelays (2 * dl) k := by
  simp only [backoffDelays, List.range_succ_eq_map, List.map_cons, List.map_map,
    pow_zero, one_mul]
  congr 1
  apply List.map_congr_left
  intro i _
  simp only [Function.comp_apply]
  rw [pow_succ]
  ring

/-- Transient failures on the first k attempts followed by a success on
attempt a+k give the success and k doubling sleeps. -/
theorem retryGo_success {V : Type} (call : Nat → Except String V) (v : V)
    (es : Nat → String) (k : Nat) :
    ∀ (R a : Nat) (dl : ℚ), k < R →
      (∀ i, i < k → call (a + i) = .error (es (a + i)) ∧ isTransientMsg (es (a + i)) = true) →
      call (a + k) = .ok v →
      retryGo call R a dl = (.ok v, backoffDelays dl k) := by
  induction k with
  | zero =>
    intro R a dl hR hpre hk
    obtain ⟨r, rfl⟩ : ∃ r, R = r + 1 := ⟨R - 1, by omega⟩
    rw [show a + 0 = a from rfl] at hk
    simp [retryGo, hk, backoffDelays]
  | succ k ih =>
    intro R a dl hR hpre hk
    obtain ⟨r, rfl⟩ : ∃ r, R = r + 1 := ⟨R - 1, by omega⟩
    have h0 := hpre 0 (by omega)
    rw [show a + 0 = a from rfl] at h0
    have hr0 : r ≠ 0 := by omega
    have ihh := ih r (a + 1) (2 * dl) (by omega)
      (fun i hi => by
        have h := hpre (i + 1) (by omega)
        rw [show a + (i + 1) = a + 1 + i from by omega] at h
        exact h)
      (by rw [show a + 1 + k = a + (k + 1) from by omega]; exact hk)
    simp only [retryGo, h0.1, h0.2, if_true, hr0, if_false, ihh]
    rw [backoffDelays_cons]

/-- Transient failures on all R attempts give the last failure and R-1
doubling sleeps. -/
theorem retryGo_exhaust {V : Type} (call : Nat → Except String V) (es : Nat → String) :
    ∀ (R a : Nat) (dl : ℚ), 1 ≤ R →
      (∀ i, i < R → call (a + i) = .error (es (a + i)) ∧ isTransientMsg (es (a + i)) = true) →
      retryGo call R a dl = (.error (es (a + (R - 1))), backoffDelays dl (R - 1)) := by
  intro R
  induction R with
  | zero => intro a dl h; omega
  | succ r ih =>
    intro a dl _ hpre
    have h0 := hpre 0 (by omega)
    rw [show a + 0 = a from rfl] at h0
    cases r with
    | zero =>
      simp [retryGo, h0.1, h0.2, backoffDelays]
    | succ r' =>
      have ihh := ih (a + 1) (2 * dl) (by omega)
        (fun i hi => by
          have h := hpre (i + 1) (by omega)
          rw [show a + (i + 1) = a + 1 + i from by omega] at h
          exact h)
      have hr0 : r' + 1 ≠ 0 := by omega
      have hstep : retryGo call (r' + 1 + 1) a dl =
          ((retryGo call (r' + 1) (a + 1) (2 * dl)).1,
            dl :: (retryGo call (r' + 1) (a + 1) (2 * dl)).2) := by
        conv_lhs => rw [retryGo]
        rw [h0.1]
        simp only [h0.2, if_true, hr0, if_false]
      rw [show a + 1 + (r' + 1 - 1) = a + (r' + 1 + 1 - 1) from by omega] at ihh
      rw [hstep, ihh]
      rw [show r' + 1 + 1 - 1 = (r' + 1 - 1) + 1 from by omega, backoffDelays_cons]

/-- The retry loop never sleeps more than R-1 times. -/
theorem retryGo_sleeps_le {V : Type} (call : Nat → Except String V) :
    ∀ (R a : Nat) (dl : ℚ), (retryGo call R a dl).2.length ≤ R - 1 := by
  intro R
  induction R with
  | zero => intro a dl; simp [retryGo]
  | succ r ih =>
    intro a dl
    simp only [retryGo]
    cases call a with
    | ok v => simp
    | error e =>
      by_cases htr : isTransientMsg e = true
      · simp only [htr, if_true]
        by_cases hr : r = 0
        · simp [hr]
        · simp only [hr, if_false, List.length_cons]
          have := ih (a + 1) (2 * dl)
          omega
      · simp only [Bool.not_eq_true] at htr
        simp [htr]

/-- C1: the model invoker retries exactly the transient failures (a
message containing 429 / resource exhausted / quota / deadline exceeded /
timeout, case-insensitively) with exponential backoff: k-1 transient
failures followed by a success return the success after the k-1 doubling
sleeps; a first non-transient failure is re-raised with zero sleeps;
all-transient runs exhaust maxAttempts attempts and re-raise the last
failure after maxAttempts-1 sleeps; and no run sleeps more than
maxAttempts-1 times. -/
theorem claim1_retry_backoff {V : Type} (call : Nat → Except String V)
    (maxAttempts : Nat) (d : ℚ) :
    (∀ (k : Nat) (v : V) (es : Nat → String),
      1 ≤ k → k ≤ maxAttempts →
      (∀ i, i < k - 1 → call (1 + i) = .error (es (1 + i)) ∧ isTransientMsg (es (1 + i)) = true) →
      call k = .ok v →
      callWithRetries call maxAttempts d = (.ok v, backoffDelays d (k - 1))) ∧
    (∀ e, 1 ≤ maxAttempts → call 1 = .error e → isTransientMsg e = false →
      callWithRetries call maxAttempts d = (.error e, [])) ∧
    (∀ (es : Nat → String), 1 ≤ maxAttempts →
      (∀ i, i < maxAttempts →
        call (1 + i) = .error (es (1 + i)) ∧ isTransientMsg (es (1 + i)) = true) →
      callWithRetries call maxAttempts d =
        (.error (es maxAttempts), backoffDelays d (maxAttempts - 1))) ∧
    (callWithRetries call maxAttempts d).2.length ≤ maxAttempts - 1 := by
  refine ⟨?_, ?_, ?_, ?_⟩
  · intro k v es hk1 hkm hpre hk
    have h := retryGo_success call v es (k - 1) maxAttempts 1 d (by omega) hpre
      (by rw [show 1 + (k - 1) = k from by omega]; exact hk)
    exact h
  · intro e hm h1 htr
    obtain ⟨r, rfl⟩ : ∃ r, maxAttempts = r + 1 := ⟨maxAttempts - 1, by omega⟩
    simp [callWithRetries, retryGo, h1, htr]
  · intro es hm hpre
    have h := retryGo_exhaust call es maxAttempts 1 d hm hpre
    rw [show 1 + (maxAttempts - 1) = maxAttempts from by omega] at h
    exact h
  · exact retryGo_sleeps_le call maxAttempts 1 d

/-- C1 witness: a call failing with a 429 message on the first three
attempts and succeeding on the fourth returns the success after sleeping
1, 2 and 4 seconds. -/
theorem claim1_retry_backoff_witness :
    callWithRetries
      (fun i => if i ≤ 3 then (.error "HTTP 429 Too Many Requests" : Except String Nat)
                else .ok 42) 4 1 = (.ok 42, [1, 2, 4]) := by
  have h := (claim1_retry_backoff
    (fun i => if i ≤ 3 then (.error "HTTP 429 Too Many Requests" : Except String Nat)
              else .ok 42) 4 1).1 4 42 (fun _ => "HTTP 429 Too Many Requests")
    (by omega) (by omega)
    (fun i hi => by
      have h3 : 1 + i ≤ 3 := by omega
      refine ⟨by simp [h3], ?_⟩
      show isTransientMsg ("HTTP 429 Too Many Requests") = true
      decide)
    (by norm_num)
  rw [h]
  have hb : backoffDelays 1 (4 - 1) = [1, 2, 4] := by
    simp [backoffDelays, List.range_succ]
    norm_num
  rw [hb]

/-- A list contains any of its infixes. -/
theorem listContainsSub_append_middle (x pre suf : List Char) :
    listContainsSub x (pre ++ (x ++ suf)) = true := by
  induction pre with
  | nil =>
    rw [List.nil_append, listContainsSub.eq_def]
    have hp : x.isPrefixOf (x ++ suf) = true := by
      rw [List.isPrefixOf_iff_prefix]
      exact List.prefix_append x suf
    rw [hp, Bool.true_or]
  | cons c pre ih =>
    rw [List.cons_append, listContainsSub.eq_def]
    show (x.isPrefixOf (c :: (pre ++ (x ++ suf))) ||
      listContainsSub x (pre ++ (x ++ suf))) = true
    rw [ih, Bool.or_true]

/-- A string contains any of its middle segments. -/
theorem strContains_append_middle (pre x suf : String) :
    strContains (pre ++ x ++ suf) x = true := by
  show listContainsSub x.data (pre ++ x ++ suf).data = true
  have hd : (pre ++ x ++ suf).data = pre.data ++ (x.data ++ suf.data) := by
    simp [String.data_append]
  rw [hd]
  exact listContainsSub_append_middle x.data pre.data suf.data

/-- Every string contains the empty string. -/
theorem strContains_empty_needle (s : String) : strContains s "" = true := by
  show listContainsSub [] s.data = true
  rw [listContainsSub.eq_def]
  cases s.data with
  | nil => rfl
  | cons c t => rfl

/-- C4: the built text prompt always contains the language instruction;
a language whose trimmed lower-cased form is in the script-mapping table
contributes that table entry verbatim, any other non-empty language
contributes its trimmed lower-cased name, and an absent or empty language
contributes "english". -/
theorem claim4_language_directive (payload : RecipeFromTextRequest) (pick : Nat) :
    (∀ lang dir, payload.language = Option.some lang →
      scriptInstructions.lookup (pyLower (pyStrip lang)) = Option.some dir →
      strContains (buildTextPrompt payload pick) dir = true) ∧
    (∀ lang, payload.language = Option.some lang → lang ≠ "" →
      scriptInstructions.lookup (pyLower (pyStrip lang)) = Option.none →
      strContains (buildTextPrompt payload pick) (pyLower (pyStrip lang)) = true) ∧
    ((payload.language = Option.none ∨ payload.language = Option.some "") →
      strContains (buildTextPrompt payload pick) ("english") = true) := by
  have hmain : strContains (buildTextPrompt payload pick)
      (languageInstruction payload.language) = true := by
    simp only [buildTextPrompt]
    exact strContains_append_middle _ _ _
  refine ⟨?_, ?_, ?_⟩
  · intro lang dir hl hlk
    rw [hl] at hmain
    by_cases hle : lang = ""
    · subst hle
      have h0 : scriptInstructions.lookup (pyLower (pyStrip (""))) = Option.none := rfl
      rw [h0] at hlk
      cases hlk
    · by_cases ht0 : pyLower (pyStrip lang) = ""
      · rw [ht0] at hlk
        have h0 : scriptInstructions.lookup ("") = Option.none := rfl
        rw [h0] at hlk
        cases hlk
      · have : languageInstruction (Option.some lang) = dir := by
          simp only [languageInstruction, if_neg hle, if_neg ht0, hlk]
        rw [this] at hmain
        exact hmain
  · intro lang hl hle hlk
    rw [hl] at hmain
    by_cases ht0 : pyLower (pyStrip lang) = ""
    · rw [ht0]
      exact strContains_empty_needle _
    · have : languageInstruction (Option.some lang) = pyLower (pyStrip lang) := by
        simp only [languageInstruction, if_neg hle, if_neg ht0, hlk]
      rw [this] at hmain
      exact hmain
  · intro h
    rcases h with h | h <;> rw [h] at hmain <;> exact hmain

/-- C4 witness: a concrete request with language " Hindi " yields a
prompt holding the hindi native-script directive. -/
theorem claim4_language_directive_witness :
    scriptInstructions.lookup (pyLower (pyStrip (" Hindi "))) =
      Option.some ("Hindi script (देवनागरी) - use actual Devanagari Unicode characters, NOT transliteration") ∧
    strContains
      (buildTextPrompt
        { ingredients := ["aloo", "matar"], language := Option.some (" Hindi ") } 0)
      ("Hindi script (देवनागरी) - use actual Devanagari Unicode characters, NOT transliteration") = true :=
  ⟨by decide,
   (claim4_language_directive
      { ingredients := ["aloo", "matar"], language := Option.some (" Hindi ") } 0).1
     (" Hindi ")
     ("Hindi script (देवनागरी) - use actual Devanagari Unicode characters, NOT transliteration")
     rfl (by decide)⟩

/-- A triple backtick at the head survives appending. -/
theorem startsTriple_append (l t : List Char) (h : startsTriple l = true) :
    startsTriple (l ++ t) = true := by
  cases l with
  | nil => simp [startsTriple] at h
  | cons a l1 =>
    cases l1 with
    | nil => simp [startsTriple] at h
    | cons b l2 =>
      cases l2 with
      | nil => simp [startsTriple] at h
      | cons c l3 =>
        simp only [List.cons_append]
        simpa [startsTriple] using h

/-- A triple backtick somewhere in a list survives appending on the
right. -/
theorem hasTripleB_append_left (l t : List Char) (h : hasTripleB l = true) :
    hasTripleB (l ++ t) = true := by
  induction l with
  | nil => simp [hasTripleB] at h
  | cons c rest ih =>
    simp only [hasTripleB, Bool.or_eq_true] at h
    rw [List.cons_append]
    simp only [hasTripleB, Bool.or_eq_true]
    rcases h with h | h
    · left
      have := startsTriple_append (c :: rest) t h
      simpa using this
    · right
      exact ih h

/-- A triple backtick somewhere in a list survives prepending. -/
theorem hasTripleB_append_right (l t : List Char) (h : hasTripleB t = true) :
    hasTripleB (l ++ t) = true := by
  induction l with
  | nil => simpa using h
  | cons c rest ih =>
    rw [List.cons_append]
    simp only [hasTripleB, Bool.or_eq_true]
    right
    exact ih

/-- A triple backtick in an infix is a triple backtick in the whole. -/
theorem hasTripleB_infix (pre mid suf : List Char) (h : hasTripleB mid = true) :
    hasTripleB (pre ++ mid ++ suf) = true := by
  rw [List.append_assoc]
  exact hasTripleB_append_right pre (mid ++ suf) (hasTripleB_append_left mid suf h)

/-- stripList yields an infix of its input. -/
theorem stripList_is_infix (cs : List Char) :
    ∃ pre suf, cs = pre ++ stripList cs ++ suf := by
  refine ⟨cs.takeWhile pyIsSpaceChar,
    ((cs.dropWhile pyIsSpaceChar).reverse.takeWhile pyIsSpaceChar).reverse, ?_⟩
  conv_lhs => rw [← List.takeWhile_append_dropWhile pyIsSpaceChar cs]
  rw [List.append_assoc]
  congr 1
  conv_lhs => rw [← List.reverse_reverse (cs.dropWhile pyIsSpaceChar),
    ← List.takeWhile_append_dropWhile pyIsSpaceChar (cs.dropWhile pyIsSpaceChar).reverse]
  rw [List.reverse_append]
  rfl

/-- If the input has no triple backtick, neither has its strip. -/
theorem hasTripleB_stripList (cs : List Char) (h : hasTripleB cs = false) :
    hasTripleB (stripList cs) = false := by
  by_contra hc
  rw [Bool.not_eq_false] at hc
  obtain ⟨pre, suf, hdec⟩ := stripList_is_infix cs
  have := hasTripleB_infix pre (stripList cs) suf hc
  rw [← hdec] at this
  rw [this] at h
  cases h

/-- Without a triple backtick the fence search fails. -/
theorem findFenceCore_none (cs : List Char) (h : hasTripleB cs = false) :
    findFenceCore cs = Option.none := by
  induction cs with
  | nil => rfl
  | cons c rest ih =>
    simp only [hasTripleB, Bool.or_eq_false_iff] at h
    have hfa : fenceAt (c :: rest) = Option.none := by
      simp [fenceAt, h.1]
    simp [findFenceCore, hfa, ih h.2]

/-- With no triple backtick in the body, the non-greedy fence body stops
exactly at the closing fence appended after a newline. -/
theorem contentBeforeFence_closing (J : List Char) (h : hasTripleB J = false) :
    contentBeforeFence (J ++ '\n' :: '\x60' :: '\x60' :: '\x60' :: []) =
      Option.some (J ++ ['\n']) := by
  induction J with
  | nil => rfl
  | cons c J' ih =>
    simp only [hasTripleB, Bool.or_eq_false_iff] at h
    have hst : startsTriple (c :: (J' ++ '\n' :: '\x60' :: '\x60' :: '\x60' :: [])) = false := by
      cases J' with
      | nil => simp [startsTriple]
      | cons c2 J'' =>
        cases J'' with
        | nil => simp [startsTriple]
        | cons c3 rest =>
          have h1 := h.1
          simp only [startsTriple] at h1 ⊢
          simpa using h1
    rw [List.cons_append]
    simp only [contentBeforeFence, hst, Bool.false_eq_true, if_false, ih h.2]
    rfl

/-- Dropping a trailing newline does not change the strip. -/
theorem stripList_append_nl (xs : List Char) :
    stripList (xs ++ ['\n']) = stripList xs := by
  have hsub : ∀ ys : List Char, (ys ++ ['\n']).dropWhile pyIsSpaceChar =
      if (ys.dropWhile pyIsSpaceChar).isEmpty then []
      else ys.dropWhile pyIsSpaceChar ++ ['\n'] := by
    intro ys
    induction ys with
    | nil => rfl
    | cons a t ih =>
      by_cases hp : pyIsSpaceChar a = true
      · simp only [List.cons_append, List.dropWhile_cons, hp, if_true, ih]
      · rw [Bool.not_eq_true] at hp
        simp [List.dropWhile_cons, hp]
  by_cases he : (xs.dropWhile pyIsSpaceChar).isEmpty
  · have hx : xs.dropWhile pyIsSpaceChar = [] := by
      rwa [List.isEmpty_iff] at he
    simp only [stripList, hsub xs, he, if_true, hx]
    rfl
  · simp only [stripList, hsub xs, he, Bool.false_eq_true, if_false]
    rw [List.reverse_append]
    show List.reverse (List.dropWhile pyIsSpaceChar
      ('\n' :: (xs.dropWhile pyIsSpaceChar).reverse)) = _
    rw [List.dropWhile_cons]
    rfl

/-- A list with non-whitespace first and last characters strips to
itself. -/
theorem stripList_of_ends (a b : Char) (mid : List Char)
    (ha : pyIsSpaceChar a = false) (hb : pyIsSpaceChar b = false) :
    stripList (a :: (mid ++ [b])) = a :: (mid ++ [b]) := by
  simp only [stripList, List.dropWhile_cons, ha, Bool.false_eq_true, if_false]
  rw [show (a :: (mid ++ [b])).reverse = b :: (mid.reverse ++ [a]) from by simp]
  rw [List.dropWhile_cons, hb]
  simp

/-- A fenced wrapping of a payload with the json tag. -/
def fenceWrapJson (J : String) : String :=
  "\x60\x60\x60json\n" ++ J ++ "\n\x60\x60\x60"

/-- A fenced wrapping of a payload with a bare fence. -/
def fenceWrapPlain (J : String) : String :=
  "\x60\x60\x60\n" ++ J ++ "\n\x60\x60\x60"

/-- The anchored fence match after three literal backticks. -/
theorem fenceAt_ticks (rest0 : List Char) :
    fenceAt ('\x60' :: '\x60' :: '\x60' :: rest0) = fenceAfterTicks rest0 := rfl

/-- The fence body after a literal json tag and newline. -/
theorem fenceAfterTicks_json (X : List Char) :
    fenceAfterTicks ('j' :: 's' :: 'o' :: 'n' :: '\n' :: X) = contentBeforeFence X := rfl

/-- A newline is never the start of a json tag. -/
theorem jsonTagNl_nl (X : List Char) : jsonTagNl ('\n' :: X) = false := by
  cases X with
  | nil => rfl
  | cons b X2 =>
    cases X2 with
    | nil => rfl
    | cons c X3 =>
      cases X3 with
      | nil => rfl
      | cons d X4 =>
        cases X4 with
        | nil => rfl
        | cons e X5 => rfl

/-- The fence body after a bare newline header. -/
theorem fenceAfterTicks_nl (X : List Char) :
    fenceAfterTicks ('\n' :: X) = contentBeforeFence X := by
  simp only [fenceAfterTicks, jsonTagNl_nl X, Bool.false_eq_true, if_false]

/-- A fence match at the head makes the search succeed there. -/
theorem findFenceCore_at_head (c : Char) (rest content : List Char)
    (h : fenceAt (c :: rest) = Option.some content) :
    findFenceCore (c :: rest) = Option.some content := by
  simp [findFenceCore, h]

/-- C6 amended: for every payload J free of the fence marker (three
backticks), normalizing a fenced wrapping of J (json-tagged or bare)
gives exactly the result of normalizing J directly.  A payload holding
the marker can break the equivalence (see the counterexample). -/
theorem claim6_fence_equivalence (J : String) (h : hasTripleB J.data = false) :
    extractAndNormalizeJson (fenceWrapJson J) = extractAndNormalizeJson J ∧
    extractAndNormalizeJson (fenceWrapPlain J) = extractAndNormalizeJson J := by
  have hdirect : extractAndNormalizeJson J = extractAfterFence (stripList J.data) := by
    show extractCore J.data = _
    simp only [extractCore, findFenceCore_none (stripList J.data) (hasTripleB_stripList J.data h)]
  constructor
  · have hdata : (fenceWrapJson J).data =
        '\x60' :: (('\x60' :: '\x60' :: 'j' :: 's' :: 'o' :: 'n' :: '\n' ::
          (J.data ++ ('\n' :: '\x60' :: '\x60' :: []))) ++ ['\x60']) := by
      show ("\x60\x60\x60json\n" ++ J ++ "\n\x60\x60\x60").data = _
      rw [String.data_append, String.data_append]
      show ('\x60' :: '\x60' :: '\x60' :: 'j' :: 's' :: 'o' :: 'n' :: '\n' :: []) ++
        J.data ++ ('\n' :: '\x60' :: '\x60' :: '\x60' :: []) = _
      simp
    have hstrip : stripList ('\x60' :: (('\x60' :: '\x60' :: 'j' :: 's' :: 'o' :: 'n' :: '\n' ::
        (J.data ++ ('\n' :: '\x60' :: '\x60' :: []))) ++ ['\x60'])) =
        '\x60' :: (('\x60' :: '\x60' :: 'j' :: 's' :: 'o' :: 'n' :: '\n' ::
          (J.data ++ ('\n' :: '\x60' :: '\x60' :: []))) ++ ['\x60']) :=
      stripList_of_ends '\x60' '\x60' _ rfl rfl
    have hform : '\x60' :: (('\x60' :: '\x60' :: 'j' :: 's' :: 'o' :: 'n' :: '\n' ::
        (J.data ++ ('\n' :: '\x60' :: '\x60' :: []))) ++ ['\x60']) =
        '\x60' :: '\x60' :: '\x60' :: 'j' :: 's' :: 'o' :: 'n' :: '\n' ::
          (J.data ++ ('\n' :: '\x60' :: '\x60' :: '\x60' :: [])) := by
      simp
    have hfence : findFenceCore ('\x60' :: (('\x60' :: '\x60' :: 'j' :: 's' :: 'o' :: 'n' :: '\n' ::
        (J.data ++ ('\n' :: '\x60' :: '\x60' :: []))) ++ ['\x60'])) =
        Option.some (J.data ++ ['\n']) := by
      apply findFenceCore_at_head
      rw [show ('\x60' :: '\x60' :: 'j' :: 's' :: 'o' :: 'n' :: '\n' ::
        (J.data ++ ('\n' :: '\x60' :: '\x60' :: []))) ++ ['\x60'] =
        '\x60' :: '\x60' :: 'j' :: 's' :: 'o' :: 'n' :: '\n' ::
          (J.data ++ ('\n' :: '\x60' :: '\x60' :: '\x60' :: [])) from by simp]
      rw [fenceAt_ticks, fenceAfterTicks_json]
      exact contentBeforeFence_closing J.data h
    rw [hdirect]
    show extractCore ((fenceWrapJson J).data) = _
    rw [hdata]
    simp only [extractCore, hstrip, hfence]
    rw [stripList_append_nl]
  · have hdata : (fenceWrapPlain J).data =
        '\x60' :: (('\x60' :: '\x60' :: '\n' ::
          (J.data ++ ('\n' :: '\x60' :: '\x60' :: []))) ++ ['\x60']) := by
      show ("\x60\x60\x60\n" ++ J ++ "\n\x60\x60\x60").data = _
      rw [String.data_append, String.data_append]
      show ('\x60' :: '\x60' :: '\x60' :: '\n' :: []) ++
        J.data ++ ('\n' :: '\x60' :: '\x60' :: '\x60' :: []) = _
      simp
    have hstrip : stripList ('\x60' :: (('\x60' :: '\x60' :: '\n' ::
        (J.data ++ ('\n' :: '\x60' :: '\x60' :: []))) ++ ['\x60'])) =
        '\x60' :: (('\x60' :: '\x60' :: '\n' ::
          (J.data ++ ('\n' :: '\x60' :: '\x60' :: []))) ++ ['\x60']) :=
      stripList_of_ends '\x60' '\x60' _ rfl rfl
    have hfence : findFenceCore ('\x60' :: (('\x60' :: '\x60' :: '\n' ::
        (J.data ++ ('\n' :: '\x60' :: '\x60' :: []))) ++ ['\x60'])) =
        Option.some (J.data ++ ['\n']) := by
      apply findFenceCore_at_head
      rw [show ('\x60' :: '\x60' :: '\n' ::
        (J.data ++ ('\n' :: '\x60' :: '\x60' :: []))) ++ ['\x60'] =
        '\x60' :: '\x60' :: '\n' ::
          (J.data ++ ('\n' :: '\x60' :: '\x60' :: '\x60' :: [])) from by simp]
      rw [fenceAt_ticks, fenceAfterTicks_nl]
      exact contentBeforeFence_closing J.data h
    rw [hdirect]
    show extractCore ((fenceWrapPlain J).data) = _
    rw [hdata]
    simp only [extractCore, hstrip, hfence]
    rw [stripList_append_nl]

/-- Is an extraction result a success? -/
def exceptIsOk : Except String PyVal → Bool
  | .ok _ => true
  | .error _ => false

/-- C6 counterexample: a valid JSON object text holding the fence marker
inside a string value normalizes fine on its own but fails inside a
fenced wrapping, because the non-greedy fence body stops at the embedded
marker and truncates the payload. -/
theorem claim6_fence_equivalence_counterexample :
    extractAndNormalizeJson ("\x7b\x22a\x22: \x22x\x60\x60\x60y\x22\x7d") =
      .ok (.dict [("a", PyVal.str ("x\x60\x60\x60y"))]) ∧
    exceptIsOk (extractAndNormalizeJson
      (fenceWrapJson ("\x7b\x22a\x22: \x22x\x60\x60\x60y\x22\x7d"))) = false :=
  ⟨rfl, rfl⟩

/-- C6 witness: the amended equivalence at a concrete fenced payload. -/
theorem claim6_fence_equivalence_witness :
    extractAndNormalizeJson (fenceWrapJson ("\x7b\x22a\x22: 1\x7d")) =
      extractAndNormalizeJson ("\x7b\x22a\x22: 1\x7d") ∧
    extractAndNormalizeJson (fenceWrapPlain ("\x7b\x22a\x22: 1\x7d")) =
      extractAndNormalizeJson ("\x7b\x22a\x22: 1\x7d") :=
  claim6_fence_equivalence ("\x7b\x22a\x22: 1\x7d") (by decide)
